import Mathlib

/-!
Shallow embedding of the inFlow MCP server core (TypeScript) in Lean 4.

Covered source:
* `src/client/inflow.ts` — `RateLimiter` (token bucket) and `InflowClient.request`
  (retry loop with `isRetryableError` classification).
* `src/tools/purchase-orders.ts` — `receive_purchase_order` and
  `unreceive_purchase_order` tool handlers (ledger reconciliation engines).

Modelling conventions:
* JS `number` quantities, token counts and wall-clock milliseconds are embedded
  as `ℚ` (the claims assume exact arithmetic; the concrete inputs used below are
  exactly representable as doubles, so `ℚ` agrees with the JS float semantics
  on them).  `quantity` fields that the source passes through
  `parseLineQuantity` / `toFixed(4)` are carried as the parsed rational value.
* Optional JS values are `Option`; JS truthiness of optional strings/booleans
  is made explicit (`truthyS`, `truthyB`; an empty string and `false` are
  falsy, any array — even empty — is truthy).
* The remote API is a collaborator: reads appear as the `PurchaseOrder`
  argument of a tool function, writes appear as data in the result value
  (`PutBody` / the `success` payload); "a write is issued" means the result
  carries a write payload.
* `randomUUID()` and `new Date().toISOString()` are injected (`freshId`,
  `nowIso` parameters).
* `fetch` outcomes of `InflowClient.executeRequest` are injected as an oracle
  `ℕ → Except JsError T` giving each attempt's outcome.
-/

namespace Inflow

/-- Lexicographic comparison of character lists, mirroring the JS `<`/`>`
string comparison (code-unit lexicographic; a strict front segment of the
other string compares smaller). -/
def charsLt : List Char → List Char → Bool
  | [], [] => false
  | [], _ :: _ => true
  | _ :: _, [] => false
  | a :: as, b :: bs => if a < b then true else if b < a then false else charsLt as bs

/-- JS `<` on strings. -/
def strLt (a b : String) : Bool := charsLt a.data b.data

/-- JS truthiness of an optional string: `undefined` and the empty string are
falsy. -/
def truthyS : Option String → Bool
  | some s => s != ""
  | none => false

/-- JS truthiness of an optional boolean: only `true` is truthy. -/
def truthyB : Option Bool → Bool
  | some b => b
  | none => false

/-! ## RateLimiter (src/client/inflow.ts, lines 6–41) -/

/-- The mutable state of `RateLimiter`: token count, last-refill wall-clock
time (ms), the cap `maxTokens`, and `refillRate` in tokens per millisecond. -/
structure RateLimiterState where
  tokens : ℚ
  lastRefill : ℚ
  maxTokens : ℚ
  refillRate : ℚ
deriving DecidableEq

/-- The `RateLimiter` constructor: `maxTokens = tokens = requestsPerMinute`,
`refillRate = requestsPerMinute / 60000` per millisecond. -/
def limiterNew (requestsPerMinute now : ℚ) : RateLimiterState :=
  { tokens := requestsPerMinute
    lastRefill := now
    maxTokens := requestsPerMinute
    refillRate := requestsPerMinute / 60000 }

/-- `RateLimiter.refill`, evaluated at wall-clock time `now`:
`tokens := min(maxTokens, tokens + elapsed * refillRate)`, `lastRefill := now`. -/
def refill (s : RateLimiterState) (now : ℚ) : RateLimiterState :=
  { s with
    tokens := min s.maxTokens (s.tokens + (now - s.lastRefill) * s.refillRate)
    lastRefill := now }

/-- `RateLimiter.acquire`.  `now1` is the wall-clock time of the initial
refill; `now2` is the time after the (possible) sleep, at which the second
refill runs.  Returns the state after the final `tokens -= 1` together with
the number of milliseconds the limiter asked to sleep
(`Math.ceil((1 - tokens) / refillRate)`, or `0` when no wait was needed). -/
def acquire (s : RateLimiterState) (now1 now2 : ℚ) : RateLimiterState × ℤ :=
  let s1 := refill s now1
  if s1.tokens < 1 then
    let waitTime : ℤ := Int.ceil ((1 - s1.tokens) / s1.refillRate)
    let s2 := refill s1 now2
    ({ s2 with tokens := s2.tokens - 1 }, waitTime)
  else
    ({ s1 with tokens := s1.tokens - 1 }, 0)

/-! ## RequestExecutor (src/client/inflow.ts, lines 119–173) -/

/-- The errors a request attempt can throw, as classified by
`isRetryableError`: an `InflowApiError` carrying an HTTP status code, a
`TypeError` (network failure, no response), or any other thrown value. -/
inductive JsError where
  | apiErr (statusCode : ℕ)
  | typeErr
  | otherErr
deriving DecidableEq

/-- The `name` property of the thrown error object (`InflowApiError` sets
`this.name = 'InflowApiError'`). -/
def JsError.errName : JsError → String
  | .apiErr _ => "InflowApiError"
  | .typeErr => "TypeError"
  | .otherErr => "Error"

/-- `InflowClient.isRetryableError`: retry on `InflowApiError` with
`statusCode >= 500 || statusCode === 429`, retry on `TypeError` (network
error), terminal otherwise. -/
def isRetryableError : JsError → Bool
  | .apiErr s => decide (500 ≤ s) || decide (s = 429)
  | .typeErr => true
  | .otherErr => false

/-- The observable outcome of `InflowClient.request`: the value returned or
error thrown, the number of attempts made, and the total backoff delay slept
between attempts (ms). -/
structure RequestOutcome (T : Type) where
  result : Except JsError T
  attempts : ℕ
  totalDelayMs : ℕ

/-- The body of the retry loop in `InflowClient.request`, with `fuel` the
number of retries still allowed (`fuel = maxRetries - attempt`; `fuel = 0`
means this is the last attempt).  `oracle n` is the outcome of `executeRequest`
on attempt `n`.  A failure on the last attempt, or a non-retryable failure, is
rethrown; otherwise the loop sleeps `retryDelayMs * 2 ^ attempt` and retries. -/
def requestAux {T : Type} (retryDelayMs : ℕ) (oracle : ℕ → Except JsError T)
    (attempt : ℕ) : ℕ → RequestOutcome T
  | 0 =>
    match oracle attempt with
    | .ok v => ⟨.ok v, 1, 0⟩
    | .error e => ⟨.error e, 1, 0⟩
  | fuel + 1 =>
    match oracle attempt with
    | .ok v => ⟨.ok v, 1, 0⟩
    | .error e =>
      if isRetryableError e then
        let rest := requestAux retryDelayMs oracle (attempt + 1) fuel
        ⟨rest.result, rest.attempts + 1, retryDelayMs * 2 ^ attempt + rest.totalDelayMs⟩
      else
        ⟨.error e, 1, 0⟩

/-- `InflowClient.request`: run the retry loop starting at attempt `0` with
`maxRetries` retries allowed. -/
def request {T : Type} (maxRetries retryDelayMs : ℕ)
    (oracle : ℕ → Except JsError T) : RequestOutcome T :=
  requestAux retryDelayMs oracle 0 maxRetries

/-- The `name` of the error raised by a request, if it failed. -/
def RequestOutcome.resultErrName {T : Type} (r : RequestOutcome T) : Option String :=
  match r.result with
  | .error e => some e.errName
  | .ok _ => none

/-! ## Purchase-order data model (src/types, as used by purchase-orders.ts) -/

/-- An order line (`PurchaseOrderItem`): optional line id, optional product
reference, ordered quantity (as parsed by `parseLineQuantity`). -/
structure OrderLine where
  purchaseOrderLineId : Option String
  productId : Option String
  quantity : ℚ
deriving DecidableEq

/-- A ledger entry (`PurchaseOrderReceiveLine`): identity, product reference,
two server-computed fields (`description`, `vendorItemCode`), received
quantity (as parsed by `parseLineQuantity`), location, sublocation, receive
date and the entry's own version stamp (`timestamp`). -/
structure ReceiveLine where
  purchaseOrderReceiveLineId : Option String
  productId : Option String
  description : Option String
  vendorItemCode : Option String
  quantity : ℚ
  locationId : Option String
  sublocation : Option String
  receiveDate : Option String
  timestamp : Option String
deriving DecidableEq

/-- A receive line reduced to the writable fields resubmitted on PUT
(the shape produced by `stripReceiveLineToWritable` and by newly built
receive lines). -/
structure WritableReceiveLine where
  purchaseOrderReceiveLineId : Option String
  productId : Option String
  quantity : ℚ
  locationId : Option String
  sublocation : Option String
  receiveDate : Option String
  timestamp : Option String
deriving DecidableEq

/-- `stripReceiveLineToWritable`: keep only the writable fields (drops
`description` and `vendorItemCode`). -/
def stripReceiveLineToWritable (rl : ReceiveLine) : WritableReceiveLine :=
  { purchaseOrderReceiveLineId := rl.purchaseOrderReceiveLineId
    productId := rl.productId
    quantity := rl.quantity
    locationId := rl.locationId
    sublocation := rl.sublocation
    receiveDate := rl.receiveDate
    timestamp := rl.timestamp }

/-- The purchase-order snapshot fetched at the start of each operation.
`unstockLines` entries are never inspected, only echoed into the PUT body, so
they are embedded as opaque strings. -/
structure PurchaseOrder where
  purchaseOrderId : String
  vendorId : Option String
  orderNumber : Option String
  status : Option String
  locationId : Option String
  lines : Option (List OrderLine)
  receiveLines : Option (List ReceiveLine)
  unstockLines : Option (List String)
  timestamp : Option String
deriving DecidableEq

/-- `currentPO.status && ['Cancelled', 'Closed'].includes(currentPO.status)`. -/
def statusTerminal (st : Option String) : Bool :=
  truthyS st && (st.getD "" == "Cancelled" || st.getD "" == "Closed")

/-! ## receive_purchase_order (src/tools/purchase-orders.ts, lines 234–513) -/

/-- One element of the `items` argument of `receive_purchase_order`. -/
structure ReceiveItem where
  purchaseOrderLineId : Option String
  productId : Option String
  quantity : ℚ
  serialNumbers : Option (List String)
deriving DecidableEq

/-- The arguments of `receive_purchase_order` (apart from the order id, which
selects the fetched snapshot). -/
structure ReceiveArgs where
  receiveAll : Option Bool
  items : Option (List ReceiveItem)
  locationId : Option String
  receiveDate : Option String
  allowOverReceive : Option Bool
deriving DecidableEq

/-- The per-item validation failures `receive_purchase_order` records (the
source pushes message strings; here each push site is a constructor). -/
inductive ReceiveError where
  | lineNotFound (lineId : String)
  | productNotFound (productId : String)
  | missingIdentifier
  | couldNotResolve (lineId : String)
  | overReceive (productId : String)
  | serialCountMismatch (productId : String)
deriving DecidableEq

/-- Functional update of a string-keyed quantity map (`Map.set`); absent keys
read as `0` (`map.get(k) || 0`). -/
def qmapSet (m : String → ℚ) (k : String) (v : ℚ) : String → ℚ :=
  fun p => if p = k then v else m p

/-- The `receivedByProduct` map: fold over the existing receive lines, skipping
entries without a truthy `productId`, accumulating parsed quantities. -/
def receivedByProduct (existing : List ReceiveLine) : String → ℚ :=
  existing.foldl
    (fun m rl =>
      if truthyS rl.productId then
        qmapSet m (rl.productId.getD "") (m (rl.productId.getD "") + rl.quantity)
      else m)
    (fun _ => 0)

/-- `lineMap.get(lineId)`: the map is built by inserting every line with a
truthy `purchaseOrderLineId`, so a duplicated id keeps the last line. -/
def lineMapGet (lines : List OrderLine) (lineId : String) : Option OrderLine :=
  (lines.filter
    (fun l => truthyS l.purchaseOrderLineId && l.purchaseOrderLineId.getD "" == lineId)).getLast?

/-- `productLineMap.get(p)`: all order lines with a truthy `productId` equal to
`p`, in order of appearance. -/
def productLinesFor (lines : List OrderLine) (p : String) : List OrderLine :=
  lines.filter (fun l => truthyS l.productId && l.productId.getD "" == p)

/-- Ordered quantity summed across all order lines for a product. -/
def orderedForProduct (lines : List OrderLine) (p : String) : ℚ :=
  (productLinesFor lines p).foldl (fun s l => s + l.quantity) 0

/-- One entry of the per-line response summary built by
`receive_purchase_order` (product names are presentation-only and omitted). -/
structure ReceiveSummaryEntry where
  productId : String
  quantity : ℚ
  ordered : ℚ
  previouslyReceived : ℚ
  totalAfterReceive : ℚ
  fullyReceived : Bool
deriving DecidableEq

/-- The accumulator of the explicit-items loop: collected errors, newly built
receive lines, the running per-product received map, and the summary. -/
structure ReceiveState where
  errors : List ReceiveError
  newReceiveLines : List WritableReceiveLine
  received : String → ℚ
  summary : List ReceiveSummaryEntry

/-- The per-call context of the explicit-items loop: the order lines, the
`allowOverReceive` flag, the resolved receive date (`args.receiveDate ||
new Date().toISOString()`), the resolved location (`args.locationId ||
currentPO.locationId`), and the `randomUUID` source for new line ids. -/
structure ReceiveCfg where
  lines : List OrderLine
  allowOverReceive : Option Bool
  receiveDate : String
  locationId : Option String
  freshId : ℕ → String

/-- Serial-count check of one item: an error iff serial numbers are supplied,
nonempty, and their count differs from the requested quantity. -/
def serialCountOk (item : ReceiveItem) : Bool :=
  match item.serialNumbers with
  | some sns => decide (sns.length = 0) || decide ((sns.length : ℚ) = item.quantity)
  | none => true

/-- One iteration of the explicit-items loop of `receive_purchase_order`:
resolve the target product (via line id, else product id), apply the
over-receive guard against the running per-product total, check serial counts,
and on acceptance append the new receive line, update the running total and
the summary. -/
def processReceiveItem (cfg : ReceiveCfg) (st : ReceiveState) (item : ReceiveItem) :
    ReceiveState :=
  -- Resolution phase: on failure, push the error and continue.
  let resolved : ReceiveError ⊕ String :=
    if truthyS item.purchaseOrderLineId then
      match lineMapGet cfg.lines (item.purchaseOrderLineId.getD "") with
      | none => .inl (.lineNotFound (item.purchaseOrderLineId.getD ""))
      | some matched =>
        if truthyS matched.productId then .inr (matched.productId.getD "")
        else .inl (.couldNotResolve (item.purchaseOrderLineId.getD ""))
    else if truthyS item.productId then
      match (productLinesFor cfg.lines (item.productId.getD "")).head? with
      | none => .inl (.productNotFound (item.productId.getD ""))
      | some _ => .inr (item.productId.getD "")
    else .inl .missingIdentifier
  match resolved with
  | .inl e => { st with errors := st.errors ++ [e] }
  | .inr pid =>
    let alreadyReceived := st.received pid
    let ordered := orderedForProduct cfg.lines pid
    if !truthyB cfg.allowOverReceive && decide (alreadyReceived + item.quantity > ordered) then
      { st with errors := st.errors ++ [.overReceive pid] }
    else if !serialCountOk item then
      { st with errors := st.errors ++ [.serialCountMismatch pid] }
    else
      let newLine : WritableReceiveLine :=
        { purchaseOrderReceiveLineId := some (cfg.freshId st.newReceiveLines.length)
          productId := some pid
          quantity := item.quantity
          locationId := if truthyS cfg.locationId then cfg.locationId else none
          sublocation := none
          receiveDate := some cfg.receiveDate
          timestamp := none }
      { errors := st.errors
        newReceiveLines := st.newReceiveLines ++ [newLine]
        received := qmapSet st.received pid (alreadyReceived + item.quantity)
        summary := st.summary ++
          [{ productId := pid
             quantity := item.quantity
             ordered := ordered
             previouslyReceived := alreadyReceived
             totalAfterReceive := alreadyReceived + item.quantity
             fullyReceived := decide (alreadyReceived + item.quantity ≥ ordered) }] }

/-- The `receiveAll` branch: for every order line with a truthy product and
positive remaining quantity, build one receive line for the remainder. -/
def receiveAllBuild (cfg : ReceiveCfg) (rcvd : String → ℚ) :
    List WritableReceiveLine × List ReceiveSummaryEntry :=
  cfg.lines.foldl
    (fun acc line =>
      if truthyS line.productId then
        let pid := line.productId.getD ""
        let ordered := line.quantity
        let alreadyReceived := rcvd pid
        let remaining := ordered - alreadyReceived
        if remaining ≤ 0 then acc
        else
          (acc.1 ++
            [{ purchaseOrderReceiveLineId := some (cfg.freshId acc.1.length)
               productId := some pid
               quantity := remaining
               locationId := if truthyS cfg.locationId then cfg.locationId else none
               sublocation := none
               receiveDate := some cfg.receiveDate
               timestamp := none }],
           acc.2 ++
            [{ productId := pid
               quantity := remaining
               ordered := ordered
               previouslyReceived := alreadyReceived
               totalAfterReceive := ordered
               fullyReceived := true }])
      else acc)
    ([], [])

/-- The observable outcome of `receive_purchase_order`.  Only `success`
issues the remote PUT; its first field is the full replacement ledger sent. -/
inductive ReceiveResult where
  | mutuallyExclusiveArgs
  | missingArgs
  | notFoundOrNoLines
  | invalidStatus (status : String)
  | allAlreadyReceived
  | validationFailure (errors : List ReceiveError)
  | success (putLines : List WritableReceiveLine) (summary : List ReceiveSummaryEntry)
      (warnings : List ReceiveError)
deriving DecidableEq

/-- The replacement ledger written by the receive call, if a write is issued. -/
def ReceiveResult.writeLines : ReceiveResult → Option (List WritableReceiveLine)
  | .success w _ _ => some w
  | _ => none

/-- The per-call context of a receive invocation: the fetched lines, the
override flag, `args.receiveDate || new Date().toISOString()`,
`args.locationId || currentPO.locationId`, and the UUID source. -/
def receiveCfgOf (po : PurchaseOrder) (args : ReceiveArgs) (nowIso : String)
    (freshId : ℕ → String) : ReceiveCfg :=
  { lines := po.lines.getD []
    allowOverReceive := args.allowOverReceive
    receiveDate := if truthyS args.receiveDate then args.receiveDate.getD "" else nowIso
    locationId := if truthyS args.locationId then args.locationId else po.locationId
    freshId := freshId }

/-- The full explicit-items loop of `receive_purchase_order`, folded from the
freshly computed per-product received map. -/
def receiveItemsRun (po : PurchaseOrder) (args : ReceiveArgs) (nowIso : String)
    (freshId : ℕ → String) : ReceiveState :=
  (args.items.getD []).foldl (processReceiveItem (receiveCfgOf po args nowIso freshId))
    { errors := [], newReceiveLines := []
      received := receivedByProduct (po.receiveLines.getD []), summary := [] }

/-- The `receive_purchase_order` handler as a function of the fetched
snapshot, the arguments, the current ISO timestamp and the UUID source. -/
def receiveTool (po : PurchaseOrder) (args : ReceiveArgs) (nowIso : String)
    (freshId : ℕ → String) : ReceiveResult :=
  if truthyB args.receiveAll ∧ args.items.isSome ∧ (args.items.getD []).length > 0 then
    .mutuallyExclusiveArgs
  else if ¬truthyB args.receiveAll ∧ (args.items.isNone ∨ (args.items.getD []).length = 0) then
    .missingArgs
  else if po.lines.isNone ∨ (po.lines.getD []).length = 0 then
    .notFoundOrNoLines
  else if statusTerminal po.status then
    .invalidStatus (po.status.getD "")
  else
    let existing := po.receiveLines.getD []
    if truthyB args.receiveAll then
      let built := receiveAllBuild (receiveCfgOf po args nowIso freshId)
        (receivedByProduct existing)
      if built.1.length = 0 then .allAlreadyReceived
      else .success (existing.map stripReceiveLineToWritable ++ built.1) built.2 []
    else
      let st := receiveItemsRun po args nowIso freshId
      if st.errors.length > 0 ∧ st.newReceiveLines.length = 0 then
        .validationFailure st.errors
      else
        .success (existing.map stripReceiveLineToWritable ++ st.newReceiveLines)
          st.summary st.errors

/-! ## unreceive_purchase_order (src/tools/purchase-orders.ts, lines 516–798) -/

/-- One element of the `items` argument of `unreceive_purchase_order`. -/
structure UnreceiveItem where
  productId : String
  quantity : ℚ
deriving DecidableEq

/-- The arguments of `unreceive_purchase_order`. -/
structure UnreceiveArgs where
  receiveLineIds : Option (List String)
  items : Option (List UnreceiveItem)
  unreceiveAll : Option Bool
  dryRun : Option Bool
deriving DecidableEq

/-- The validation failures `unreceive_purchase_order` records. -/
inductive UnreceiveError where
  | lineIdNotFound (id : String)
  | noReceiveLinesForProduct (productId : String)
  | unreceiveTooMuch (productId : String) (requested total : ℚ)
deriving DecidableEq

/-- `[receiveLineIds, items, unreceiveAll].filter(Boolean).length`: an array
argument is truthy whenever supplied (even when empty); the boolean only when
`true`. -/
def modesCount (args : UnreceiveArgs) : ℕ :=
  (if args.receiveLineIds.isSome then 1 else 0) +
  (if args.items.isSome then 1 else 0) +
  (if truthyB args.unreceiveAll then 1 else 0)

/-- JS `Set.add` on a list kept in insertion order. -/
def setAdd (s : List String) (x : String) : List String :=
  if x ∈ s then s else s ++ [x]

/-- Add many ids to the set, in order. -/
def setAddAll (s : List String) (xs : List String) : List String :=
  xs.foldl setAdd s

/-- `receiveLineMap.get(id)`: the map is keyed by truthy
`purchaseOrderReceiveLineId`; a duplicated id keeps the last entry. -/
def receiveLineMapGet (existing : List ReceiveLine) (id : String) : Option ReceiveLine :=
  (existing.filter
    (fun rl => truthyS rl.purchaseOrderReceiveLineId &&
      rl.purchaseOrderReceiveLineId.getD "" == id)).getLast?

/-- Membership in `receiveLineMap`. -/
def receiveLineMapHas (existing : List ReceiveLine) (id : String) : Bool :=
  (receiveLineMapGet existing id).isSome

/-- The receive lines selected for a LIFO unreceive item:
`rl.productId === item.productId && rl.purchaseOrderReceiveLineId`. -/
def unreceiveLinesFor (existing : List ReceiveLine) (p : String) : List ReceiveLine :=
  existing.filter (fun rl => rl.productId == some p && truthyS rl.purchaseOrderReceiveLineId)

/-- Total received for a product: `reduce((sum, rl) => sum + qty, 0)`. -/
def totalReceivedFor (existing : List ReceiveLine) (p : String) : ℚ :=
  (unreceiveLinesFor existing p).foldl (fun s rl => s + rl.quantity) 0

/-- The LIFO comparator passed to `Array.prototype.sort`: receive date
descending, then version stamp (`timestamp`) descending, then entry id
descending; `0` on full tie (stable sort keeps the original order). -/
def lifoComparator (a b : ReceiveLine) : ℤ :=
  let dateA := a.receiveDate.getD ""
  let dateB := b.receiveDate.getD ""
  if strLt dateA dateB then 1
  else if strLt dateB dateA then -1
  else
    let tsA := a.timestamp.getD ""
    let tsB := b.timestamp.getD ""
    if strLt tsA tsB then 1
    else if strLt tsB tsA then -1
    else
      let idA := a.purchaseOrderReceiveLineId.getD ""
      let idB := b.purchaseOrderReceiveLineId.getD ""
      if strLt idA idB then 1
      else if strLt idB idA then -1
      else 0

/-- Stable insertion of `x` into an already-sorted list: `x` goes after every
element the comparator places strictly before it (ties keep the earlier,
original-order element first, as the ES2019 stable sort does). -/
def lifoInsert (x : ReceiveLine) : List ReceiveLine → List ReceiveLine
  | [] => [x]
  | y :: ys => if lifoComparator y x < 0 then y :: lifoInsert x ys else x :: y :: ys

/-- `[...productLines].sort(comparator)` as a stable insertion sort. -/
def sortLifo (l : List ReceiveLine) : List ReceiveLine :=
  l.foldr lifoInsert []

/-- One partial reduction recorded by the LIFO walk
(`partialMods.push({ id, newQty, oldQty })`). -/
structure LineReduction where
  id : String
  newQty : ℚ
  oldQty : ℚ
deriving DecidableEq

/-- The LIFO consumption walk over the sorted entries: break once the
remainder is `≤ 0`; an entry whose quantity is `≤` the remainder is removed
whole and subtracted; otherwise the entry is reduced to
`lineQty - remaining` and the remainder becomes `0`. -/
def lifoWalk (remaining : ℚ) : List ReceiveLine → List String × List LineReduction
  | [] => ([], [])
  | rl :: rest =>
    if remaining ≤ 0 then ([], [])
    else
      let lineQty := rl.quantity
      let rlId := rl.purchaseOrderReceiveLineId.getD ""
      if lineQty ≤ remaining then
        let walked := lifoWalk (remaining - lineQty) rest
        (rlId :: walked.1, walked.2)
      else
        let walked := lifoWalk 0 rest
        (walked.1, ⟨rlId, lineQty - remaining, lineQty⟩ :: walked.2)

/-- The accumulated phase-3 computation: ids marked for whole removal
(a `Set` in insertion order), partial reductions, validation errors. -/
structure UnreceiveComputed where
  removeIds : List String
  mods : List LineReduction
  errors : List UnreceiveError
deriving DecidableEq

/-- One iteration of the LIFO items loop: select the product's entries, check
any exist, check the requested quantity does not exceed the total received,
then sort and walk. -/
def processUnreceiveItem (existing : List ReceiveLine) (acc : UnreceiveComputed)
    (item : UnreceiveItem) : UnreceiveComputed :=
  let productLines := unreceiveLinesFor existing item.productId
  if productLines.length = 0 then
    { acc with errors := acc.errors ++ [.noReceiveLinesForProduct item.productId] }
  else
    let totalReceived := totalReceivedFor existing item.productId
    if item.quantity > totalReceived then
      { acc with errors := acc.errors ++
          [.unreceiveTooMuch item.productId item.quantity totalReceived] }
    else
      let walked := lifoWalk item.quantity (sortLifo productLines)
      { acc with
        removeIds := setAddAll acc.removeIds walked.1
        mods := acc.mods ++ walked.2 }

/-- Phase-3 computation for each of the three modes (`unreceiveAll` first,
then `receiveLineIds`, then `items`, as in the source's if/else chain). -/
def unreceiveCompute (existing : List ReceiveLine) (args : UnreceiveArgs) :
    UnreceiveComputed :=
  if truthyB args.unreceiveAll then
    { removeIds :=
        setAddAll []
          (existing.filterMap
            (fun rl =>
              if truthyS rl.purchaseOrderReceiveLineId then
                some (rl.purchaseOrderReceiveLineId.getD "")
              else none))
      mods := []
      errors := [] }
  else if args.receiveLineIds.isSome then
    (args.receiveLineIds.getD []).foldl
      (fun acc id =>
        if receiveLineMapHas existing id then { acc with removeIds := setAdd acc.removeIds id }
        else { acc with errors := acc.errors ++ [.lineIdNotFound id] })
      { removeIds := [], mods := [], errors := [] }
  else if args.items.isSome then
    (args.items.getD []).foldl (processUnreceiveItem existing)
      { removeIds := [], mods := [], errors := [] }
  else
    { removeIds := [], mods := [], errors := [] }

/-- One entry of the `removed` response summary. -/
structure RemovedEntry where
  receiveLineId : String
  productId : String
  quantity : ℚ
  receiveDate : Option String
deriving DecidableEq

/-- One entry of the `modified` response summary. -/
structure ModifiedEntry where
  receiveLineId : String
  productId : String
  oldQty : ℚ
  newQty : ℚ
deriving DecidableEq

/-- Phase 4: the `removed` summary, iterating the removal set in insertion
order and looking each id up in `receiveLineMap`. -/
def buildRemoved (existing : List ReceiveLine) (removeIds : List String) :
    List RemovedEntry :=
  removeIds.filterMap
    (fun rlId =>
      (receiveLineMapGet existing rlId).map
        (fun rl => ⟨rlId, rl.productId.getD "", rl.quantity, rl.receiveDate⟩))

/-- Phase 4: the `modified` summary. -/
def buildModified (existing : List ReceiveLine) (mods : List LineReduction) :
    List ModifiedEntry :=
  mods.map
    (fun m =>
      ⟨m.id, ((receiveLineMapGet existing m.id).map (fun rl => rl.productId.getD "")).getD "",
        m.oldQty, m.newQty⟩)

/-- In-place quantity update of the first remaining line whose id matches
(`remainingLines.find(rl => rl.purchaseOrderReceiveLineId === mod.id)`). -/
def setQtyFirst (id : String) (q : ℚ) : List WritableReceiveLine → List WritableReceiveLine
  | [] => []
  | l :: rest =>
    if l.purchaseOrderReceiveLineId == some id then { l with quantity := q } :: rest
    else l :: setQtyFirst id q rest

/-- Apply all partial reductions to the retained lines. -/
def applyMods (ls : List WritableReceiveLine) (mods : List LineReduction) :
    List WritableReceiveLine :=
  mods.foldl (fun acc m => setQtyFirst m.id m.newQty acc) ls

/-- The retained ledger: existing entries not marked for removal, stripped to
writable fields, with partial reductions applied. -/
def remainingLines (existing : List ReceiveLine) (comp : UnreceiveComputed) :
    List WritableReceiveLine :=
  applyMods
    ((existing.filter
        (fun rl => !(comp.removeIds.contains (rl.purchaseOrderReceiveLineId.getD "")))).map
      stripReceiveLineToWritable)
    comp.mods

/-- The full-replacement PUT body of the unreceive write. -/
structure PutBody where
  purchaseOrderId : String
  vendorId : Option String
  receiveLines : List WritableReceiveLine
  unstockLines : List String
  timestamp : Option String
deriving DecidableEq

/-- The observable outcome of `unreceive_purchase_order`.  Only `applied`
issues the remote PUT. -/
inductive UnreceiveResult where
  | invalidModes (count : ℕ)
  | invalidStatus (status : String)
  | noReceiveLines
  | validationFailure (errors : List UnreceiveError)
  | preview (wouldRemove : List RemovedEntry) (wouldModify : List ModifiedEntry)
      (remainingCount : ℤ)
  | applied (body : PutBody) (removed : List RemovedEntry) (modified : List ModifiedEntry)
deriving DecidableEq

/-- The PUT body of the unreceive call, if a write is issued. -/
def UnreceiveResult.writeBody : UnreceiveResult → Option PutBody
  | .applied b _ _ => some b
  | _ => none

/-- The `unreceive_purchase_order` handler as a function of the fetched
snapshot and the arguments. -/
def unreceiveTool (po : PurchaseOrder) (args : UnreceiveArgs) : UnreceiveResult :=
  if modesCount args = 0 then .invalidModes 0
  else if modesCount args > 1 then .invalidModes (modesCount args)
  else if statusTerminal po.status then .invalidStatus (po.status.getD "")
  else
    let existing := po.receiveLines.getD []
    if existing.length = 0 then .noReceiveLines
    else
      let comp := unreceiveCompute existing args
      if comp.errors.length > 0 then .validationFailure comp.errors
      else
        let removed := buildRemoved existing comp.removeIds
        let modified := buildModified existing comp.mods
        if truthyB args.dryRun then
          .preview removed modified ((existing.length : ℤ) - comp.removeIds.length)
        else
          .applied
            { purchaseOrderId := po.purchaseOrderId
              vendorId := po.vendorId
              receiveLines := remainingLines existing comp
              unstockLines := po.unstockLines.getD []
              timestamp := po.timestamp }
            removed modified

/-! ## Theorems -/

/-- Case analysis of `acquire`: the wait branch (tokens below one after the
first refill) and the immediate branch. -/
theorem acquire_eq_cases (s : RateLimiterState) (now1 now2 : ℚ) :
    ((refill s now1).tokens < 1 →
      acquire s now1 now2 =
        ({ refill (refill s now1) now2 with
            tokens := (refill (refill s now1) now2).tokens - 1 },
         Int.ceil ((1 - (refill s now1).tokens) / s.refillRate)))
    ∧ (1 ≤ (refill s now1).tokens →
      acquire s now1 now2 =
        ({ refill s now1 with tokens := (refill s now1).tokens - 1 }, 0)) := by
  constructor
  · intro h
    simp only [acquire, refill] at h ⊢
    rw [if_pos h]
  · intro h
    simp only [acquire, refill] at h ⊢
    rw [if_neg (by simpa using not_lt.mpr h)]

/-- C7: For every call to `RateLimiter.acquire`, the limiter first refills
tokens by elapsed-time × rate/60000 per millisecond capped at the configured
maximum; if the resulting token count is < 1 it waits
`ceil((1 - tokens)/refillRate)` milliseconds and refills again; and it then
deducts exactly one token.  (The constructor conjunct ties `refillRate` to
`rate/60000` and `maxTokens` to the configured rate.) -/
theorem c7_acquire_algorithm (rpm now0 : ℚ) (s : RateLimiterState) (now1 now2 : ℚ) :
    ((limiterNew rpm now0).refillRate = rpm / 60000 ∧
     (limiterNew rpm now0).maxTokens = rpm ∧
     (limiterNew rpm now0).tokens = rpm)
    ∧ refill s now1 =
        { s with
          tokens := min s.maxTokens (s.tokens + (now1 - s.lastRefill) * s.refillRate)
          lastRefill := now1 }
    ∧ ((refill s now1).tokens < 1 →
        acquire s now1 now2 =
          ({ refill (refill s now1) now2 with
              tokens := (refill (refill s now1) now2).tokens - 1 },
           Int.ceil ((1 - (refill s now1).tokens) / s.refillRate)))
    ∧ (1 ≤ (refill s now1).tokens →
        acquire s now1 now2 =
          ({ refill s now1 with tokens := (refill s now1).tokens - 1 }, 0)) := by
  exact ⟨⟨rfl, rfl, rfl⟩, rfl, (acquire_eq_cases s now1 now2).1, (acquire_eq_cases s now1 now2).2⟩

/-- Witness for C7: a limiter at 60 requests/minute holding half a token at
time 0 must wait 500 ms; acquiring with the second refill at time 1000 leaves
half a token. -/
theorem c7_witness :
    (refill ⟨1/2, 0, 60, 1/1000⟩ 0).tokens < 1 ∧
    acquire ⟨1/2, 0, 60, 1/1000⟩ 0 1000 = (⟨1/2, 1000, 60, 1/1000⟩, 500) := by
  have h1 : (refill (⟨1/2, 0, 60, 1/1000⟩ : RateLimiterState) 0).tokens < 1 := by
    norm_num [refill]
  refine ⟨h1, ?_⟩
  rw [(c7_acquire_algorithm 60 0 ⟨1/2, 0, 60, 1/1000⟩ 0 1000).2.2.1 h1]
  have hc : ((1 : ℚ) - (refill (⟨1/2, 0, 60, 1/1000⟩ : RateLimiterState) 0).tokens) / (1/1000)
      = 500 := by
    norm_num [refill]
  norm_num [refill, hc, Prod.ext_iff, RateLimiterState.mk.injEq]

/-- C9: Assuming a monotonic clock, a sleep that waits at least the requested
number of milliseconds, and exact arithmetic, after each completed `acquire`
the token count satisfies `0 ≤ tokens ≤ maxTokens`, and the acquire decreases
the (refilled) token budget by exactly one.  The configured rate is at least
one token (`1 ≤ maxTokens`) with a positive refill rate, as the constructor
produces for any positive whole requests-per-minute. -/
theorem c9_acquire_invariant (s : RateLimiterState) (now1 now2 : ℚ)
    (hmax : 1 ≤ s.maxTokens) (hrate : 0 < s.refillRate)
    (htok0 : 0 ≤ s.tokens) (htokM : s.tokens ≤ s.maxTokens)
    (hmono : s.lastRefill ≤ now1)
    (hsleep : (((acquire s now1 now2).2 : ℤ) : ℚ) ≤ now2 - now1) :
    (0 ≤ (acquire s now1 now2).1.tokens ∧ (acquire s now1 now2).1.tokens ≤ s.maxTokens)
    ∧ ((refill s now1).tokens < 1 →
        (acquire s now1 now2).1.tokens = (refill (refill s now1) now2).tokens - 1)
    ∧ (1 ≤ (refill s now1).tokens →
        (acquire s now1 now2).1.tokens = (refill s now1).tokens - 1) := by
  by_cases h : (refill s now1).tokens < 1
  · have hceil : ((1 : ℚ) - (refill s now1).tokens) / s.refillRate ≤
        ((Int.ceil (((1 : ℚ) - (refill s now1).tokens) / s.refillRate) : ℤ) : ℚ) :=
      Int.le_ceil _
    have hacq : acquire s now1 now2 =
        ({ refill (refill s now1) now2 with
            tokens := (refill (refill s now1) now2).tokens - 1 },
         Int.ceil ((1 - (refill s now1).tokens) / s.refillRate)) :=
      (acquire_eq_cases s now1 now2).1 h
    have htok : (acquire s now1 now2).1.tokens
        = (refill (refill s now1) now2).tokens - 1 := by rw [hacq]
    have hwt : (acquire s now1 now2).2
        = Int.ceil ((1 - (refill s now1).tokens) / s.refillRate) := by rw [hacq]
    rw [hwt] at hsleep
    have hwait : ((1 : ℚ) - (refill s now1).tokens) / s.refillRate ≤ now2 - now1 :=
      le_trans hceil hsleep
    have hone : (1 : ℚ) - (refill s now1).tokens ≤ (now2 - now1) * s.refillRate :=
      (div_le_iff₀ hrate).mp hwait
    have hproj : (refill (refill s now1) now2).tokens
        = min s.maxTokens ((refill s now1).tokens + (now2 - now1) * s.refillRate) := rfl
    have hfill : (1 : ℚ) ≤ (refill (refill s now1) now2).tokens := by
      rw [hproj]
      exact le_min hmax (by linarith)
    have hcap : (refill (refill s now1) now2).tokens ≤ s.maxTokens := by
      rw [hproj]
      exact min_le_left _ _
    refine ⟨⟨?_, ?_⟩, fun _ => htok, fun h1 => absurd h (not_lt.mpr h1)⟩
    · rw [htok]; linarith
    · rw [htok]; linarith
  · have h1 : 1 ≤ (refill s now1).tokens := not_lt.mp h
    have hacq : acquire s now1 now2 =
        ({ refill s now1 with tokens := (refill s now1).tokens - 1 }, 0) :=
      (acquire_eq_cases s now1 now2).2 h1
    have htok : (acquire s now1 now2).1.tokens = (refill s now1).tokens - 1 := by rw [hacq]
    have hcap : (refill s now1).tokens ≤ s.maxTokens := min_le_left _ _
    refine ⟨⟨?_, ?_⟩, fun hlt => absurd hlt h, fun _ => htok⟩
    · rw [htok]; linarith
    · rw [htok]; linarith

/-- Witness for C9: the concrete acquire of `c7_witness` keeps
`0 ≤ tokens ≤ 60` and deducts exactly one token from the refilled budget. -/
theorem c9_witness :
    ((1 : ℚ) ≤ 60 ∧ (0 : ℚ) < 1/1000 ∧ (0 : ℚ) ≤ 1/2 ∧ (1/2 : ℚ) ≤ 60 ∧ (0 : ℚ) ≤ 0 ∧
      (((acquire ⟨1/2, 0, 60, 1/1000⟩ 0 1000).2 : ℤ) : ℚ) ≤ 1000 - 0) ∧
    (0 ≤ (acquire ⟨1/2, 0, 60, 1/1000⟩ 0 1000).1.tokens ∧
      (acquire ⟨1/2, 0, 60, 1/1000⟩ 0 1000).1.tokens ≤ 60) := by
  have h1 : (refill (⟨1/2, 0, 60, 1/1000⟩ : RateLimiterState) 0).tokens < 1 := by
    norm_num [refill]
  have hs : (((acquire ⟨1/2, 0, 60, 1/1000⟩ 0 1000).2 : ℤ) : ℚ) ≤ 1000 - 0 := by
    rw [(acquire_eq_cases ⟨1/2, 0, 60, 1/1000⟩ 0 1000).1 h1]
    have hc : ((1 : ℚ) - (refill (⟨1/2, 0, 60, 1/1000⟩ : RateLimiterState) 0).tokens) / (1/1000)
        = 500 := by
      norm_num [refill]
    show ((Int.ceil ((1 - (refill (⟨1/2, 0, 60, 1/1000⟩ : RateLimiterState) 0).tokens) / (1/1000)) : ℤ) : ℚ) ≤ 1000 - 0
    rw [hc]
    norm_num
  exact ⟨⟨by norm_num, by norm_num, by norm_num, by norm_num, le_refl 0, hs⟩,
    (c9_acquire_invariant ⟨1/2, 0, 60, 1/1000⟩ 0 1000 (by norm_num) (by norm_num)
      (by norm_num) (by norm_num) (le_refl 0) hs).1⟩

/-- Helper: when every attempt up to the last-but-one fails retryably (and the
oracle always fails), the loop runs out of fuel: it makes `fuel + 1` attempts
and rethrows the error of the final attempt. -/
theorem requestAux_all_retry (d : ℕ) (errs : ℕ → JsError) :
    ∀ (fuel attempt : ℕ),
      (∀ i, i < fuel → isRetryableError (errs (attempt + i)) = true) →
      (requestAux d (fun i => (.error (errs i) : Except JsError ℕ)) attempt fuel).result
          = .error (errs (attempt + fuel)) ∧
      (requestAux d (fun i => (.error (errs i) : Except JsError ℕ)) attempt fuel).attempts
          = fuel + 1 := by
  intro fuel
  induction fuel with
  | zero => intro attempt _; exact ⟨rfl, rfl⟩
  | succ n ih =>
    intro attempt h
    have h0 : isRetryableError (errs attempt) = true := by
      have := h 0 (Nat.succ_pos n)
      simpa using this
    have ih1 := ih (attempt + 1) (fun i hi => by
      have := h (i + 1) (Nat.succ_lt_succ hi)
      simpa [Nat.add_assoc, Nat.add_comm 1 i] using this)
    simp only [requestAux, h0, if_true]
    refine ⟨?_, ?_⟩
    · rw [ih1.1]
      have hidx : attempt + 1 + n = attempt + (n + 1) := by omega
      rw [hidx]
    · rw [ih1.2]

/-- Helper: a terminal (non-retryable) failure at relative attempt `k`, after
`k` retryable failures, stops the loop at `k + 1` attempts with that error. -/
theorem requestAux_terminal (d : ℕ) (errs : ℕ → JsError) :
    ∀ (k fuel attempt : ℕ), k ≤ fuel →
      (∀ i, i < k → isRetryableError (errs (attempt + i)) = true) →
      isRetryableError (errs (attempt + k)) = false →
      (requestAux d (fun i => (.error (errs i) : Except JsError ℕ)) attempt fuel).result
          = .error (errs (attempt + k)) ∧
      (requestAux d (fun i => (.error (errs i) : Except JsError ℕ)) attempt fuel).attempts
          = k + 1 := by
  intro k
  induction k with
  | zero =>
    intro fuel attempt _ _ hterm
    cases fuel with
    | zero => exact ⟨rfl, rfl⟩
    | succ n =>
      simp only [Nat.add_zero] at hterm
      simp only [requestAux, hterm]
      exact ⟨rfl, rfl⟩
  | succ m ih =>
    intro fuel attempt hk hbefore hterm
    cases fuel with
    | zero => omega
    | succ n =>
      have h0 : isRetryableError (errs attempt) = true := by
        have := hbefore 0 (Nat.succ_pos m)
        simpa using this
      have ihm := ih n (attempt + 1) (by omega)
        (fun i hi => by
          have := hbefore (i + 1) (Nat.succ_lt_succ hi)
          simpa [Nat.add_assoc, Nat.add_comm 1 i] using this)
        (by
          have heq : attempt + 1 + m = attempt + (m + 1) := by omega
          rw [heq]
          exact hterm)
      simp only [requestAux, h0, if_true]
      have heq : attempt + 1 + m = attempt + (m + 1) := by omega
      refine ⟨?_, ?_⟩
      · rw [ihm.1, heq]
      · rw [ihm.2]

/-- C3 (corrected): When every attempt fails with a retryable failure, the
executor makes exactly `maxRetries + 1` attempts and then rethrows the last
classified error itself — an `InflowApiError`/`TypeError`, never a
`RetryExhaustedError` wrapper, which the code does not define; when a
terminal failure occurs at an earlier attempt `k`, the original classified
error is raised after exactly `k + 1` attempts. -/
theorem c3_retry_exhaustion (maxRetries d : ℕ) (errs : ℕ → JsError) :
    ((∀ i, i < maxRetries → isRetryableError (errs i) = true) →
      (request maxRetries d (fun i => (.error (errs i) : Except JsError ℕ))).attempts
          = maxRetries + 1 ∧
      (request maxRetries d (fun i => (.error (errs i) : Except JsError ℕ))).result
          = .error (errs maxRetries) ∧
      (request maxRetries d (fun i => (.error (errs i) : Except JsError ℕ))).resultErrName
          ≠ some "RetryExhaustedError")
    ∧ (∀ k, k ≤ maxRetries →
        (∀ i, i < k → isRetryableError (errs i) = true) →
        isRetryableError (errs k) = false →
        (request maxRetries d (fun i => (.error (errs i) : Except JsError ℕ))).attempts
            = k + 1 ∧
        (request maxRetries d (fun i => (.error (errs i) : Except JsError ℕ))).result
            = .error (errs k)) := by
  constructor
  · intro hall
    have hmain := requestAux_all_retry d errs maxRetries 0 (fun i hi => by simpa using hall i hi)
    simp only [Nat.zero_add] at hmain
    refine ⟨hmain.2, hmain.1, ?_⟩
    simp only [RequestOutcome.resultErrName, request] at hmain ⊢
    rw [hmain.1]
    cases errs maxRetries <;> simp [JsError.errName]
  · intro k hk hbefore hterm
    have hmain := requestAux_terminal d errs k maxRetries 0 hk
      (fun i hi => by simpa using hbefore i hi) (by simpa using hterm)
    simp only [Nat.zero_add] at hmain
    exact ⟨hmain.2, hmain.1⟩

/-- Counterexample for C3 as stated: with `maxRetries = 2` and HTTP 503 on
every attempt, the executor does make 3 attempts, but the raised error is the
original `InflowApiError` — it is not wrapped as any `RetryExhaustedError`
(no such error type exists in the code). -/
theorem c3_counterexample :
    (request 2 100 (fun _ => (.error (.apiErr 503) : Except JsError ℕ))).attempts = 2 + 1 ∧
    (request 2 100 (fun _ => (.error (.apiErr 503) : Except JsError ℕ))).resultErrName
        = some "InflowApiError" ∧
    some "InflowApiError" ≠ some "RetryExhaustedError" := by
  refine ⟨rfl, rfl, by decide⟩

/-- Witness for C3 (corrected): exhaustion with all-503 attempts at
`maxRetries = 2` gives 3 attempts and the 503 `InflowApiError`; a terminal 400
after a retryable network error gives 2 attempts and the 400 error. -/
theorem c3_witness :
    ((∀ i, i < 2 → isRetryableError ((fun _ => JsError.apiErr 503) i) = true) ∧
      (request 2 100 (fun i => (.error ((fun _ => JsError.apiErr 503) i) : Except JsError ℕ))).attempts
          = 2 + 1) ∧
    ((1 ≤ 3 ∧ (∀ i, i < 1 → isRetryableError ((fun j => if j = 0 then JsError.typeErr else JsError.apiErr 400) i) = true) ∧
        isRetryableError ((fun j => if j = 0 then JsError.typeErr else JsError.apiErr 400) 1) = false) ∧
      (request 3 100 (fun i => (.error ((fun j => if j = 0 then JsError.typeErr else JsError.apiErr 400) i) : Except JsError ℕ))).attempts
          = 1 + 1) := by
  refine ⟨⟨fun i _ => by simp [isRetryableError], ?_⟩,
    ⟨⟨by omega, fun i hi => ?_, by simp [isRetryableError]⟩, ?_⟩⟩
  · exact ((c3_retry_exhaustion 2 100 (fun _ => JsError.apiErr 503)).1
      (fun i _ => by simp [isRetryableError])).1
  · interval_cases i
    simp [isRetryableError]
  · exact ((c3_retry_exhaustion 3 100
      (fun j => if j = 0 then JsError.typeErr else JsError.apiErr 400)).2 1 (by omega)
      (fun i hi => by interval_cases i; simp [isRetryableError])
      (by simp [isRetryableError])).1

/-- C4: A failure is classified retryable iff it is an HTTP response with
status ≥ 500, an HTTP 429 response, or a transport-level error with no
response (`TypeError`); any other failure is terminal and is raised after
exactly one attempt with no retry and no backoff delay. -/
theorem c4_retry_classification :
    (∀ e : JsError, isRetryableError e = true ↔
      ((∃ st, e = .apiErr st ∧ (500 ≤ st ∨ st = 429)) ∨ e = .typeErr))
    ∧ (∀ (maxRetries d : ℕ) (e : JsError) (oracle : ℕ → Except JsError ℕ),
        oracle 0 = .error e → isRetryableError e = false →
        request maxRetries d oracle = ⟨.error e, 1, 0⟩) := by
  constructor
  · intro e
    cases e with
    | apiErr st => simp [isRetryableError]
    | typeErr => simp [isRetryableError]
    | otherErr => simp [isRetryableError]
  · intro maxRetries d e oracle h0 hterm
    cases maxRetries with
    | zero =>
      simp only [request, requestAux, h0]
    | succ n =>
      simp only [request, requestAux, h0, hterm]
      rfl

/-- Witness for C4: HTTP 400 is not retryable, and with every attempt
returning 400 the request fails after exactly one attempt with zero backoff
delay. -/
theorem c4_witness :
    (isRetryableError (.apiErr 400) = true ↔
      ((∃ st, JsError.apiErr 400 = .apiErr st ∧ (500 ≤ st ∨ st = 429)) ∨
        JsError.apiErr 400 = .typeErr)) ∧
    ((fun _ => (.error (.apiErr 400) : Except JsError ℕ)) 0 = .error (.apiErr 400) ∧
      isRetryableError (.apiErr 400) = false) ∧
    request 3 100 (fun _ => (.error (.apiErr 400) : Except JsError ℕ)) = ⟨.error (.apiErr 400), 1, 0⟩ := by
  exact ⟨c4_retry_classification.1 (.apiErr 400), ⟨rfl, by decide⟩,
    c4_retry_classification.2 3 100 (.apiErr 400) _ rfl (by decide)⟩

/-! ### Order facts about the LIFO comparator -/

/-- `charsLt` is irreflexive. -/
theorem charsLt_irrefl : ∀ a : List Char, charsLt a a = false
  | [] => rfl
  | a :: as => by simp [charsLt, charsLt_irrefl as]

/-- `charsLt` is asymmetric. -/
theorem charsLt_asymm : ∀ a b : List Char, charsLt a b = true → charsLt b a = false
  | [], [] => by simp [charsLt]
  | [], _ :: _ => by simp [charsLt]
  | _ :: _, [] => by simp [charsLt]
  | a :: as, b :: bs => by
    simp only [charsLt]
    intro h
    by_cases hab : a < b
    · simp [hab, lt_asymm hab]
    · by_cases hba : b < a
      · simp [hab, hba] at h
      · simp only [hab, hba, if_false] at h ⊢
        exact charsLt_asymm as bs h

/-- `charsLt` is transitive. -/
theorem charsLt_trans : ∀ a b c : List Char,
    charsLt a b = true → charsLt b c = true → charsLt a c = true
  | [], [], _ => by simp [charsLt]
  | [], _ :: _, [] => by simp [charsLt]
  | [], _ :: _, _ :: _ => by simp [charsLt]
  | _ :: _, [], _ => by simp [charsLt]
  | _ :: _, _ :: _, [] => by simp [charsLt]
  | a :: as, b :: bs, c :: cs => by
    simp only [charsLt]
    intro hab hbc
    by_cases h1 : a < b
    · by_cases h2 : b < c
      · simp [lt_trans h1 h2]
      · by_cases h3 : c < b
        · simp [h2, h3] at hbc
        · have hbceq : b = c := le_antisymm (le_of_not_lt h3) (le_of_not_lt h2)
          simp [hbceq ▸ h1]
    · by_cases h1b : b < a
      · simp [h1, h1b] at hab
      · have habeq : a = b := le_antisymm (le_of_not_lt h1b) (le_of_not_lt h1)
        subst habeq
        simp only [h1, if_false, charsLt_irrefl] at hab ⊢
        by_cases h2 : a < c
        · simp [h2]
        · by_cases h3 : c < a
          · simp [h2, h3] at hbc
          · simp only [h2, h3, if_false] at hbc ⊢
            exact charsLt_trans as bs cs hab hbc

/-- Two lists neither of which lexicographically precedes the other are
equal. -/
theorem charsLt_conn : ∀ a b : List Char,
    charsLt a b = false → charsLt b a = false → a = b
  | [], [] => fun _ _ => rfl
  | [], _ :: _ => by simp [charsLt]
  | _ :: _, [] => by simp [charsLt]
  | a :: as, b :: bs => by
    simp only [charsLt]
    intro h1 h2
    by_cases hab : a < b
    · simp [hab] at h1
    · by_cases hba : b < a
      · simp [hab, hba] at h2
      · simp only [hab, hba, if_false] at h1 h2
        have hc : a = b := le_antisymm (le_of_not_lt hba) (le_of_not_lt hab)
        rw [hc, charsLt_conn as bs h1 h2]

/-- `strLt` is irreflexive. -/
theorem strLt_irrefl (a : String) : strLt a a = false :=
  charsLt_irrefl a.data

/-- `strLt` is asymmetric. -/
theorem strLt_asymm {a b : String} (h : strLt a b = true) : strLt b a = false :=
  charsLt_asymm a.data b.data h

/-- `strLt` is transitive. -/
theorem strLt_trans {a b c : String} (h1 : strLt a b = true) (h2 : strLt b c = true) :
    strLt a c = true :=
  charsLt_trans a.data b.data c.data h1 h2

/-- Two strings neither of which precedes the other are equal. -/
theorem strLt_conn {a b : String} (h1 : strLt a b = false) (h2 : strLt b a = false) :
    a = b := by
  cases a with
  | mk da =>
    cases b with
    | mk db => exact congrArg String.mk (charsLt_conn da db h1 h2)

/-- The LIFO sort key of a ledger entry: receive date, version stamp, entry
identity (all defaulted to the empty string as the comparator does). -/
def lifoKey (a : ReceiveLine) : String × String × String :=
  (a.receiveDate.getD "", a.timestamp.getD "", a.purchaseOrderReceiveLineId.getD "")

/-- Strict lexicographic order on sort keys (by JS string comparison). -/
def keyLt (x y : String × String × String) : Prop :=
  strLt x.1 y.1 = true
  ∨ (x.1 = y.1 ∧ (strLt x.2.1 y.2.1 = true
      ∨ (x.2.1 = y.2.1 ∧ strLt x.2.2 y.2.2 = true)))

/-- The descending order the LIFO sort produces: `a` may precede `b` iff `b`'s
key is lexicographically below `a`'s, or the keys tie — descending by receive
date, ties broken by descending version stamp, then by descending entry
identity. -/
def lifoDescRel (a b : ReceiveLine) : Prop :=
  keyLt (lifoKey b) (lifoKey a) ∨ lifoKey b = lifoKey a

/-- `keyLt` is transitive. -/
theorem keyLt_trans {x y z : String × String × String}
    (h1 : keyLt x y) (h2 : keyLt y z) : keyLt x z := by
  rcases h1 with h1 | ⟨e1, h1⟩
  · rcases h2 with h2 | ⟨e2, _⟩
    · exact Or.inl (strLt_trans h1 h2)
    · exact Or.inl (e2 ▸ h1)
  · rcases h2 with h2 | ⟨e2, h2⟩
    · exact Or.inl (e1 ▸ h2)
    · refine Or.inr ⟨e1.trans e2, ?_⟩
      rcases h1 with h1 | ⟨f1, h1⟩
      · rcases h2 with h2 | ⟨f2, _⟩
        · exact Or.inl (strLt_trans h1 h2)
        · exact Or.inl (f2 ▸ h1)
      · rcases h2 with h2 | ⟨f2, h2⟩
        · exact Or.inl (f1 ▸ h2)
        · exact Or.inr ⟨f1.trans f2, strLt_trans h1 h2⟩

/-- Trichotomy for `keyLt`. -/
theorem keyLt_tri (x y : String × String × String) :
    keyLt x y ∨ keyLt y x ∨ x = y := by
  obtain ⟨x1, x2, x3⟩ := x
  obtain ⟨y1, y2, y3⟩ := y
  by_cases h1 : strLt x1 y1 = true
  · exact Or.inl (Or.inl h1)
  · by_cases h1b : strLt y1 x1 = true
    · exact Or.inr (Or.inl (Or.inl h1b))
    · have e1 : x1 = y1 :=
        strLt_conn (Bool.not_eq_true _ ▸ h1) (Bool.not_eq_true _ ▸ h1b)
      by_cases h2 : strLt x2 y2 = true
      · exact Or.inl (Or.inr ⟨e1, Or.inl h2⟩)
      · by_cases h2b : strLt y2 x2 = true
        · exact Or.inr (Or.inl (Or.inr ⟨e1.symm, Or.inl h2b⟩))
        · have e2 : x2 = y2 :=
            strLt_conn (Bool.not_eq_true _ ▸ h2) (Bool.not_eq_true _ ▸ h2b)
          by_cases h3 : strLt x3 y3 = true
          · exact Or.inl (Or.inr ⟨e1, Or.inr ⟨e2, h3⟩⟩)
          · by_cases h3b : strLt y3 x3 = true
            · exact Or.inr (Or.inl (Or.inr ⟨e1.symm, Or.inr ⟨e2.symm, h3b⟩⟩))
            · have e3 : x3 = y3 :=
                strLt_conn (Bool.not_eq_true _ ▸ h3) (Bool.not_eq_true _ ▸ h3b)
              exact Or.inr (Or.inr (by rw [e1, e2, e3]))

/-- `keyLt` is asymmetric. -/
theorem keyLt_asymm {x y : String × String × String}
    (h : keyLt x y) : ¬keyLt y x := by
  intro h2
  rcases h with h | ⟨e1, h⟩ <;> rcases h2 with h2 | ⟨e2, h2⟩
  · exact absurd h2 (by simp [strLt_asymm h])
  · exact absurd h (by simp [e2, strLt_irrefl])
  · exact absurd h2 (by simp [e1, strLt_irrefl])
  · rcases h with h | ⟨f1, h⟩ <;> rcases h2 with h2 | ⟨f2, h2⟩
    · exact absurd h2 (by simp [strLt_asymm h])
    · exact absurd h (by simp [f2, strLt_irrefl])
    · exact absurd h2 (by simp [f1, strLt_irrefl])
    · exact absurd h2 (by simp [strLt_asymm h])

/-- The comparator returns a negative value exactly when `a`'s key is
lexicographically above `b`'s (so `a` sorts strictly before `b`). -/
theorem lifoComparator_neg_iff (a b : ReceiveLine) :
    lifoComparator a b < 0 ↔ keyLt (lifoKey b) (lifoKey a) := by
  simp only [lifoComparator, lifoKey, keyLt]
  by_cases h1 : strLt (a.receiveDate.getD "") (b.receiveDate.getD "") = true
  · have h1b : strLt (b.receiveDate.getD "") (a.receiveDate.getD "") = false := strLt_asymm h1
    have hne : ¬ b.receiveDate.getD "" = a.receiveDate.getD "" := by
      intro e
      rw [e, strLt_irrefl] at h1
      exact Bool.false_ne_true h1
    simp [h1, h1b, hne]
  · by_cases h1b : strLt (b.receiveDate.getD "") (a.receiveDate.getD "") = true
    · simp [h1, h1b]
    · have e1 : b.receiveDate.getD "" = a.receiveDate.getD "" :=
        strLt_conn (Bool.not_eq_true _ ▸ h1b) (Bool.not_eq_true _ ▸ h1)
      by_cases h2 : strLt (a.timestamp.getD "") (b.timestamp.getD "") = true
      · have h2b : strLt (b.timestamp.getD "") (a.timestamp.getD "") = false := strLt_asymm h2
        have hne : ¬ b.timestamp.getD "" = a.timestamp.getD "" := by
          intro e
          rw [e, strLt_irrefl] at h2
          exact Bool.false_ne_true h2
        simp [h1, h1b, h2, h2b, e1, hne, strLt_irrefl]
      · by_cases h2b : strLt (b.timestamp.getD "") (a.timestamp.getD "") = true
        · simp [h1, h1b, h2, h2b, e1, strLt_irrefl]
        · have e2 : b.timestamp.getD "" = a.timestamp.getD "" :=
            strLt_conn (Bool.not_eq_true _ ▸ h2b) (Bool.not_eq_true _ ▸ h2)
          by_cases h3 : strLt (a.purchaseOrderReceiveLineId.getD "")
              (b.purchaseOrderReceiveLineId.getD "") = true
          · have h3b : strLt (b.purchaseOrderReceiveLineId.getD "")
                (a.purchaseOrderReceiveLineId.getD "") = false := strLt_asymm h3
            have hne3 : ¬ b.purchaseOrderReceiveLineId.getD ""
                = a.purchaseOrderReceiveLineId.getD "" := by
              intro e
              rw [e, strLt_irrefl] at h3
              exact Bool.false_ne_true h3
            simp [h1, h1b, h2, h2b, h3, h3b, e1, e2, hne3, strLt_irrefl]
          · by_cases h3b : strLt (b.purchaseOrderReceiveLineId.getD "")
                (a.purchaseOrderReceiveLineId.getD "") = true
            · simp [h1, h1b, h2, h2b, h3, h3b, e1, e2, strLt_irrefl]
            · have e3 : b.purchaseOrderReceiveLineId.getD ""
                  = a.purchaseOrderReceiveLineId.getD "" :=
                strLt_conn (Bool.not_eq_true _ ▸ h3b) (Bool.not_eq_true _ ▸ h3)
              simp [h1, h1b, h2, h2b, h3, h3b, e1, e2, e3, strLt_irrefl]

/-- If the comparator does not place `y` strictly before `x`, then `x` may
precede `y` in the descending order. -/
theorem lifoDescRel_of_not_neg {x y : ReceiveLine}
    (h : ¬ lifoComparator y x < 0) : lifoDescRel x y := by
  rw [lifoComparator_neg_iff] at h
  rcases keyLt_tri (lifoKey y) (lifoKey x) with h1 | h1 | h1
  · exact Or.inl h1
  · exact absurd h1 h
  · exact Or.inr h1

/-- `lifoDescRel` is transitive. -/
theorem lifoDescRel_trans {x y z : ReceiveLine}
    (h1 : lifoDescRel x y) (h2 : lifoDescRel y z) : lifoDescRel x z := by
  rcases h1 with h1 | h1 <;> rcases h2 with h2 | h2
  · exact Or.inl (keyLt_trans h2 h1)
  · exact Or.inl (h2 ▸ h1)
  · exact Or.inl (h1 ▸ h2)
  · exact Or.inr (h2.trans h1)

/-- Inserting preserves the multiset of entries. -/
theorem lifoInsert_perm (x : ReceiveLine) :
    ∀ l : List ReceiveLine, (lifoInsert x l).Perm (x :: l)
  | [] => List.Perm.refl _
  | y :: ys => by
    simp only [lifoInsert]
    by_cases hc : lifoComparator y x < 0
    · rw [if_pos hc]
      exact ((lifoInsert_perm x ys).cons y).trans (List.Perm.swap x y ys)
    · rw [if_neg hc]

/-- The sort is a permutation of its input. -/
theorem sortLifo_perm : ∀ l : List ReceiveLine, (sortLifo l).Perm l
  | [] => List.Perm.refl _
  | a :: as => by
    simp only [sortLifo, List.foldr_cons]
    exact (lifoInsert_perm a _).trans ((sortLifo_perm as).cons a)

/-- Inserting preserves sortedness in the descending order. -/
theorem lifoInsert_pairwise (x : ReceiveLine) :
    ∀ l : List ReceiveLine, l.Pairwise lifoDescRel →
      (lifoInsert x l).Pairwise lifoDescRel
  | [], _ => List.pairwise_singleton _ _
  | y :: ys, hp => by
    rcases List.pairwise_cons.mp hp with ⟨hy, hys⟩
    simp only [lifoInsert]
    by_cases hc : lifoComparator y x < 0
    · rw [if_pos hc]
      refine List.pairwise_cons.mpr ⟨?_, lifoInsert_pairwise x ys hys⟩
      intro z hz
      rcases List.mem_cons.mp ((lifoInsert_perm x ys).mem_iff.mp hz) with hz | hz
      · rw [hz]
        exact Or.inl ((lifoComparator_neg_iff y x).mp hc)
      · exact hy z hz
    · rw [if_neg hc]
      refine List.pairwise_cons.mpr ⟨?_, hp⟩
      intro z hz
      have hxy : lifoDescRel x y := lifoDescRel_of_not_neg hc
      rcases List.mem_cons.mp hz with hz | hz
      · exact hz ▸ hxy
      · exact lifoDescRel_trans hxy (hy z hz)

/-- The sort output is sorted in the descending key order. -/
theorem sortLifo_pairwise : ∀ l : List ReceiveLine, (sortLifo l).Pairwise lifoDescRel
  | [] => List.Pairwise.nil
  | a :: as => by
    simp only [sortLifo, List.foldr_cons]
    exact lifoInsert_pairwise a _ (sortLifo_pairwise as)

/-- A non-positive remainder removes and reduces nothing. -/
theorem lifoWalk_nonpos : ∀ (l : List ReceiveLine) (r : ℚ), r ≤ 0 → lifoWalk r l = ([], [])
  | [], _, _ => rfl
  | _ :: _, r, h => by simp only [lifoWalk, if_pos h]

/-- The ledger entry used by the C1 example: quantity 5 received at the
earlier date t1. -/
def entryT1 : ReceiveLine :=
  ⟨some "L1", some "P", none, none, 5, none, none, some "2024-01-01", none⟩

/-- The ledger entry used by the C1 example: quantity 3 received at the later
date t2. -/
def entryT2 : ReceiveLine :=
  ⟨some "L2", some "P", none, none, 3, none, none, some "2024-02-01", none⟩

/-- C1: The LIFO unreceive engine sorts the product's entries descending by
receive date, ties broken by descending version stamp, then by descending
entry identity (a permutation, pairwise in the descending key order), and
walks the sorted list: an entry whose quantity is ≤ the remainder is removed
whole and subtracted; the first entry whose quantity exceeds the remainder is
reduced to `entryQuantity - remainder` and the walk stops.  In particular,
for entries [qty 5 dated t1, qty 3 dated t2] with t2 > t1 and requested
quantity 4, the t2 entry is removed entirely and the t1 entry is reduced to
quantity 4. -/
theorem c1_lifo_sort_and_walk :
    (∀ l : List ReceiveLine, (sortLifo l).Perm l ∧ (sortLifo l).Pairwise lifoDescRel)
    ∧ (∀ (remaining : ℚ) (rl : ReceiveLine) (rest : List ReceiveLine),
        0 < remaining →
        (rl.quantity ≤ remaining →
          lifoWalk remaining (rl :: rest) =
            ((rl.purchaseOrderReceiveLineId.getD "") :: (lifoWalk (remaining - rl.quantity) rest).1,
             (lifoWalk (remaining - rl.quantity) rest).2))
        ∧ (remaining < rl.quantity →
          lifoWalk remaining (rl :: rest) =
            ([], [⟨rl.purchaseOrderReceiveLineId.getD "", rl.quantity - remaining, rl.quantity⟩])))
    ∧ strLt "2024-01-01" "2024-02-01" = true
    ∧ processUnreceiveItem [entryT1, entryT2] ⟨[], [], []⟩ ⟨"P", 4⟩ =
        ⟨["L2"], [⟨"L1", 4, 5⟩], []⟩ := by
  refine ⟨fun l => ⟨sortLifo_perm l, sortLifo_pairwise l⟩, ?_, by decide, ?_⟩
  · intro remaining rl rest h0
    constructor
    · intro hle
      simp only [lifoWalk, if_neg (not_le.mpr h0), if_pos hle]
    · intro hlt
      simp only [lifoWalk, if_neg (not_le.mpr h0), if_neg (not_le.mpr hlt),
        lifoWalk_nonpos rest 0 le_rfl]
  · norm_num +decide [processUnreceiveItem, unreceiveLinesFor, totalReceivedFor, sortLifo,
      lifoInsert, lifoComparator, lifoWalk, setAddAll, setAdd, truthyS, strLt, charsLt,
      entryT1, entryT2]

/-- Witness for C1: the sort facts at the example ledger, and the walk step at
remaining 4 consuming the qty-3 entry whole. -/
theorem c1_witness :
    ((sortLifo [entryT1, entryT2]).Perm [entryT1, entryT2] ∧
      (sortLifo [entryT1, entryT2]).Pairwise lifoDescRel) ∧
    ((0 : ℚ) < 4 ∧ entryT2.quantity ≤ 4 ∧
      lifoWalk 4 [entryT2, entryT1] =
        ((entryT2.purchaseOrderReceiveLineId.getD "") :: (lifoWalk (4 - entryT2.quantity) [entryT1]).1,
         (lifoWalk (4 - entryT2.quantity) [entryT1]).2)) := by
  refine ⟨c1_lifo_sort_and_walk.1 [entryT1, entryT2], by norm_num, ?_, ?_⟩
  · norm_num [entryT2]
  · exact ((c1_lifo_sort_and_walk.2.1 4 entryT2 [entryT1]) (by norm_num)).1
      (by norm_num [entryT2])

/-! ### Conservation of the LIFO walk (C8) -/

/-- The total quantity taken off partially reduced entries. -/
def reductionTotal (ms : List LineReduction) : ℚ :=
  (ms.map (fun m => m.oldQty - m.newQty)).sum

/-- The id of a ledger entry, as the walk reads it. -/
def idOfLine (rl : ReceiveLine) : String :=
  rl.purchaseOrderReceiveLineId.getD ""

/-- The summed quantity of a list of ledger entries. -/
def quantityTotal (l : List ReceiveLine) : ℚ :=
  (l.map (fun rl => rl.quantity)).sum

/-- The source's `reduce((sum, rl) => sum + qty, 0)` as `quantityTotal`. -/
theorem foldl_add_quantity : ∀ (l : List ReceiveLine) (a : ℚ),
    l.foldl (fun s rl => s + rl.quantity) a = a + quantityTotal l
  | [], a => by simp [quantityTotal]
  | rl :: rest, a => by
    simp only [List.foldl_cons, quantityTotal, List.map_cons, List.sum_cons]
    rw [foldl_add_quantity rest (a + rl.quantity)]
    show a + rl.quantity + quantityTotal rest = _
    simp only [quantityTotal]
    ring

/-- Conservation of the LIFO walk over any entry list: for a non-negative
request bounded by the total quantity, the removed entries are a front
segment of the list, the removed quantity plus the partial reduction equals
the request exactly, and at most one entry is partially reduced. -/
theorem lifoWalk_conservation : ∀ (l : List ReceiveLine) (q : ℚ), 0 ≤ q →
    q ≤ quantityTotal l →
    ∃ k, (lifoWalk q l).1 = (l.take k).map idOfLine ∧
      quantityTotal (l.take k) + reductionTotal (lifoWalk q l).2 = q ∧
      (lifoWalk q l).2.length ≤ 1
  | [], q, h0, hle => by
    refine ⟨0, rfl, ?_, by simp [lifoWalk]⟩
    have hq : q = 0 := le_antisymm (by simpa [quantityTotal] using hle) h0
    simp [lifoWalk, quantityTotal, reductionTotal, hq]
  | rl :: rest, q, h0, hle => by
    by_cases hq : q ≤ 0
    · have hq0 : q = 0 := le_antisymm hq h0
      subst hq0
      refine ⟨0, ?_, ?_, ?_⟩ <;>
        simp [lifoWalk_nonpos (rl :: rest) 0 le_rfl, quantityTotal, reductionTotal]
    · by_cases hle1 : rl.quantity ≤ q
      · have hrec := lifoWalk_conservation rest (q - rl.quantity) (by linarith)
          (by
            have : quantityTotal (rl :: rest) = rl.quantity + quantityTotal rest := by
              simp [quantityTotal]
            linarith)
        obtain ⟨k, h1, h2, h3⟩ := hrec
        refine ⟨k + 1, ?_, ?_, ?_⟩
        · simp only [lifoWalk, if_neg hq, if_pos hle1, List.take_succ_cons, List.map_cons]
          rw [h1]
          simp [idOfLine]
        · simp only [lifoWalk, if_neg hq, if_pos hle1, List.take_succ_cons]
          have hqt : quantityTotal (rl :: List.take k rest)
              = rl.quantity + quantityTotal (List.take k rest) := by
            simp [quantityTotal]
          rw [hqt]
          linarith
        · simp only [lifoWalk, if_neg hq, if_pos hle1]
          exact h3
      · refine ⟨0, ?_, ?_, ?_⟩
        · simp only [lifoWalk, if_neg hq, if_neg hle1, lifoWalk_nonpos rest 0 le_rfl,
            List.take_zero, List.map_nil]
        · simp only [lifoWalk, if_neg hq, if_neg hle1, lifoWalk_nonpos rest 0 le_rfl,
            List.take_zero, quantityTotal, reductionTotal, List.map_nil, List.sum_nil,
            List.map_cons, List.sum_cons, zero_add]
          ring
        · simp only [lifoWalk, if_neg hq, if_neg hle1, lifoWalk_nonpos rest 0 le_rfl]
          simp

/-- C8 (corrected; amended with a non-negative requested quantity): for every
LIFO unreceive item that passes validation (the product has ledger entries
and `0 ≤ quantity ≤ total received`), the walk conserves quantity exactly —
the removed entries are a front segment of the sorted list whose summed
quantity plus the partial reduction equals the requested quantity — and at
most one entry per item request is partially reduced. -/
theorem c8_walk_conservation (existing : List ReceiveLine) (item : UnreceiveItem)
    (hne : (unreceiveLinesFor existing item.productId).length ≠ 0)
    (h0 : 0 ≤ item.quantity)
    (hle : item.quantity ≤ totalReceivedFor existing item.productId) :
    (processUnreceiveItem existing ⟨[], [], []⟩ item).errors = [] ∧
    (processUnreceiveItem existing ⟨[], [], []⟩ item).mods
        = (lifoWalk item.quantity (sortLifo (unreceiveLinesFor existing item.productId))).2 ∧
    (∃ k,
      (lifoWalk item.quantity (sortLifo (unreceiveLinesFor existing item.productId))).1
          = ((sortLifo (unreceiveLinesFor existing item.productId)).take k).map idOfLine ∧
      quantityTotal ((sortLifo (unreceiveLinesFor existing item.productId)).take k)
          + reductionTotal
              (lifoWalk item.quantity (sortLifo (unreceiveLinesFor existing item.productId))).2
          = item.quantity) ∧
    (lifoWalk item.quantity (sortLifo (unreceiveLinesFor existing item.productId))).2.length
        ≤ 1 := by
  have htot : totalReceivedFor existing item.productId
      = quantityTotal (unreceiveLinesFor existing item.productId) := by
    rw [totalReceivedFor, foldl_add_quantity, zero_add]
  have hperm : (sortLifo (unreceiveLinesFor existing item.productId)).Perm
      (unreceiveLinesFor existing item.productId) := sortLifo_perm _
  have hsum : quantityTotal (sortLifo (unreceiveLinesFor existing item.productId))
      = quantityTotal (unreceiveLinesFor existing item.productId) := by
    simp only [quantityTotal]
    exact (hperm.map (fun rl => rl.quantity)).sum_eq
  have hle2 : item.quantity
      ≤ quantityTotal (sortLifo (unreceiveLinesFor existing item.productId)) := by
    rw [hsum, ← htot]
    exact hle
  obtain ⟨k, h1, h2, h3⟩ := lifoWalk_conservation _ item.quantity h0 hle2
  have hproc : processUnreceiveItem existing ⟨[], [], []⟩ item =
      { removeIds := setAddAll []
          (lifoWalk item.quantity (sortLifo (unreceiveLinesFor existing item.productId))).1
        mods := [] ++
          (lifoWalk item.quantity (sortLifo (unreceiveLinesFor existing item.productId))).2
        errors := [] } := by
    simp only [processUnreceiveItem, if_neg hne, if_neg (not_lt.mpr hle)]
  rw [hproc]
  exact ⟨rfl, by simp, ⟨k, h1, h2⟩, h3⟩

/-- Witness for C8 (amended): the C1 example ledger passes validation at
requested quantity 4; the walk removes the qty-3 entry and reduces the qty-5
entry, conserving 3 + 1 = 4. -/
theorem c8_witness :
    ((unreceiveLinesFor [entryT1, entryT2] "P").length ≠ 0 ∧
      (0 : ℚ) ≤ 4 ∧ (4 : ℚ) ≤ totalReceivedFor [entryT1, entryT2] "P") ∧
    (processUnreceiveItem [entryT1, entryT2] ⟨[], [], []⟩ ⟨"P", 4⟩).errors = [] ∧
    (lifoWalk 4 (sortLifo (unreceiveLinesFor [entryT1, entryT2] "P"))).2.length ≤ 1 := by
  have hne : (unreceiveLinesFor [entryT1, entryT2] "P").length ≠ 0 := by
    norm_num +decide [unreceiveLinesFor, truthyS, entryT1, entryT2]
  have hle : (4 : ℚ) ≤ totalReceivedFor [entryT1, entryT2] "P" := by
    norm_num +decide [totalReceivedFor, unreceiveLinesFor, truthyS, entryT1, entryT2]
  have h := c8_walk_conservation [entryT1, entryT2] ⟨"P", 4⟩ hne (by norm_num) hle
  exact ⟨⟨hne, by norm_num, hle⟩, h.1, h.2.2.2⟩

/-- Counterexample for C8 as stated: a request of quantity −1 against a
ledger holding quantity 3 passes the code's validation (entries exist and
−1 ≤ 3), yet the walk removes and reduces nothing, so the conserved sum 0
differs from the requested −1. -/
theorem c8_counterexample :
    (unreceiveLinesFor [entryT2] "P").length ≠ 0 ∧
    (-1 : ℚ) ≤ totalReceivedFor [entryT2] "P" ∧
    (processUnreceiveItem [entryT2] ⟨[], [], []⟩ ⟨"P", -1⟩).errors = [] ∧
    lifoWalk (-1) (sortLifo (unreceiveLinesFor [entryT2] "P")) = ([], []) ∧
    quantityTotal [] + reductionTotal [] ≠ (-1 : ℚ) := by
  refine ⟨?_, ?_, ?_, ?_, ?_⟩
  · norm_num +decide [unreceiveLinesFor, truthyS, entryT2]
  · norm_num +decide [totalReceivedFor, unreceiveLinesFor, truthyS, entryT2]
  · norm_num +decide [processUnreceiveItem, unreceiveLinesFor, totalReceivedFor, sortLifo,
      lifoInsert, lifoComparator, lifoWalk, setAddAll, setAdd, truthyS, strLt, charsLt, entryT2]
  · exact lifoWalk_nonpos _ _ (by norm_num)
  · norm_num [quantityTotal, reductionTotal]

/-! ### The over-receive guard (C2) -/

/-- The C2 example order: one line, product "P", ordered 10; the ledger
already holds 8. -/
def poOver : PurchaseOrder :=
  { purchaseOrderId := "PO1", vendorId := some "V", orderNumber := none,
    status := some "Open", locationId := none,
    lines := some [⟨some "OL1", some "P", 10⟩],
    receiveLines := some [⟨some "R1", some "P", none, none, 8, none, none,
      some "2024-01-01", none⟩],
    unstockLines := none, timestamp := some "TS" }

/-- The C2 example arguments: a single explicit item requesting 5 of "P",
no override. -/
def argsOver : ReceiveArgs := ⟨none, some [⟨none, some "P", 5, none⟩], none, none, none⟩

/-- The per-call context the C2 example produces. -/
def cfgW : ReceiveCfg :=
  { lines := poOver.lines.getD []
    allowOverReceive := none
    receiveDate := "NOW"
    locationId := none
    freshId := fun n => toString n }

/-- Reduction of one explicit-item iteration once the item resolves through
its `productId` to a product present on the order: the iteration is exactly
the guard, then the serial check, then acceptance. -/
theorem processReceiveItem_resolved (cfg : ReceiveCfg) (st : ReceiveState)
    (item : ReceiveItem) (pid : String)
    (hpol : item.purchaseOrderLineId = none) (hpid : item.productId = some pid)
    (hne : pid ≠ "") (hlines : productLinesFor cfg.lines pid ≠ []) :
    processReceiveItem cfg st item =
      (if !truthyB cfg.allowOverReceive &&
          decide (st.received pid + item.quantity > orderedForProduct cfg.lines pid) then
        { st with errors := st.errors ++ [.overReceive pid] }
      else if !serialCountOk item then
        { st with errors := st.errors ++ [.serialCountMismatch pid] }
      else
        { errors := st.errors
          newReceiveLines := st.newReceiveLines ++
            [{ purchaseOrderReceiveLineId := some (cfg.freshId st.newReceiveLines.length)
               productId := some pid
               quantity := item.quantity
               locationId := if truthyS cfg.locationId then cfg.locationId else none
               sublocation := none
               receiveDate := some cfg.receiveDate
               timestamp := none }]
          received := qmapSet st.received pid (st.received pid + item.quantity)
          summary := st.summary ++
            [{ productId := pid
               quantity := item.quantity
               ordered := orderedForProduct cfg.lines pid
               previouslyReceived := st.received pid
               totalAfterReceive := st.received pid + item.quantity
               fullyReceived :=
                 decide (st.received pid + item.quantity ≥ orderedForProduct cfg.lines pid) }] }) := by
  obtain ⟨m, hm⟩ : ∃ m, (productLinesFor cfg.lines pid).head? = some m := by
    cases h : (productLinesFor cfg.lines pid).head? with
    | none => exact absurd (List.head?_eq_none_iff.mp h) hlines
    | some m => exact ⟨m, rfl⟩
  have htr : truthyS item.productId = true := by
    rw [hpid]
    simpa [truthyS] using hne
  simp only [processReceiveItem, hpol, hpid, hm]
  simp only [truthyS, Option.getD_some]
  have hne2 : (pid != "") = true := by simpa using hne
  simp only [hne2]
  simp [hm]

/-- C2: an item that resolves to a product is rejected by the over-receive
guard exactly when no override flag is set and
`alreadyReceived + requested > orderedForProduct` (against the running
per-call total `st.received`); an accepted item bumps the running total so a
second item for the same product in the same invocation is checked against
the updated cumulative total; and in the concrete case ordered=10,
alreadyReceived=8, requested=5, no override, as the only item, validation
fails with the over-receive error, no ledger entry is built, and no remote
write is issued. -/
theorem c2_over_receive_guard :
    (∀ (cfg : ReceiveCfg) (st : ReceiveState) (item : ReceiveItem) (pid : String),
      item.purchaseOrderLineId = none → item.productId = some pid → pid ≠ "" →
      productLinesFor cfg.lines pid ≠ [] →
      (((processReceiveItem cfg st item).errors = st.errors ++ [.overReceive pid]) ↔
        (truthyB cfg.allowOverReceive = false ∧
          orderedForProduct cfg.lines pid < st.received pid + item.quantity)) ∧
      ((truthyB cfg.allowOverReceive = true ∨
          st.received pid + item.quantity ≤ orderedForProduct cfg.lines pid) →
        serialCountOk item = true →
        (processReceiveItem cfg st item).received pid = st.received pid + item.quantity ∧
        (processReceiveItem cfg st item).newReceiveLines.length
            = st.newReceiveLines.length + 1 ∧
        (processReceiveItem cfg st item).errors = st.errors))
    ∧ receiveTool poOver argsOver "NOW" (fun n => toString n)
        = .validationFailure [.overReceive "P"]
    ∧ (receiveTool poOver argsOver "NOW" (fun n => toString n)).writeLines = none := by
  refine ⟨?_, ?_, ?_⟩
  · intro cfg st item pid hpol hpid hne hlines
    rw [processReceiveItem_resolved cfg st item pid hpol hpid hne hlines]
    by_cases hg : (!truthyB cfg.allowOverReceive &&
        decide (st.received pid + item.quantity > orderedForProduct cfg.lines pid)) = true
    · rw [if_pos hg]
      constructor
      · have hcomp := (Bool.and_eq_true _ _).mp hg
        refine iff_of_true rfl ⟨?_, of_decide_eq_true hcomp.2⟩
        simpa using hcomp.1
      · intro hok _
        exfalso
        have hp := (Bool.and_eq_true _ _).mp hg
        rcases hok with hok | hok
        · rw [hok] at hp
          simp at hp
        · have := of_decide_eq_true hp.2
          exact absurd hok (not_le.mpr this)
    · rw [if_neg hg]
      constructor
      · by_cases hs : serialCountOk item = true
        · simp only [hs, Bool.not_true, Bool.false_eq_true, if_false]
          constructor
          · intro h
            exfalso
            have : st.errors = st.errors ++ [ReceiveError.overReceive pid] := h
            simpa using this
          · intro ⟨h1, h2⟩
            exfalso
            apply hg
            simp [h1, decide_eq_true_eq, h2]
        · simp only [Bool.not_eq_true] at hs
          simp only [hs, Bool.not_false, if_true]
          constructor
          · intro h
            exfalso
            have := List.append_cancel_left h
            simpa using this
          · intro ⟨h1, h2⟩
            exfalso
            apply hg
            simp [h1, decide_eq_true_eq, h2]
      · intro _ hs
        simp only [hs, Bool.not_true, Bool.false_eq_true, if_false]
        refine ⟨?_, ?_, ?_⟩
        · simp [qmapSet]
        · simp
        · trivial
  · norm_num +decide [receiveTool, receiveItemsRun, receiveCfgOf, poOver, argsOver, truthyS,
      truthyB, statusTerminal, processReceiveItem, productLinesFor, orderedForProduct,
      lineMapGet, receivedByProduct, qmapSet, serialCountOk]
  · norm_num +decide [receiveTool, receiveItemsRun, receiveCfgOf, poOver, argsOver, truthyS,
      truthyB, statusTerminal, processReceiveItem, productLinesFor, orderedForProduct,
      lineMapGet, receivedByProduct, qmapSet, serialCountOk, ReceiveResult.writeLines]

/-- Witness for C2: at the concrete order (ordered 10, received 8) a request
of 5 with no override is rejected by the guard, and a request of 2 is
accepted and bumps the running total to 10. -/
theorem c2_witness :
    ((processReceiveItem cfgW ⟨[], [], receivedByProduct (poOver.receiveLines.getD []), []⟩
        ⟨none, some "P", 5, none⟩).errors = [.overReceive "P"]) ∧
    ((processReceiveItem cfgW ⟨[], [], receivedByProduct (poOver.receiveLines.getD []), []⟩
        ⟨none, some "P", 2, none⟩).received "P" = 10) := by
  have hlines : productLinesFor cfgW.lines "P" ≠ [] := by
    norm_num +decide [productLinesFor, cfgW, poOver, truthyS]
  have hrec : receivedByProduct (poOver.receiveLines.getD []) "P" = 8 := by
    norm_num +decide [receivedByProduct, poOver, truthyS, qmapSet]
  constructor
  · have h := ((c2_over_receive_guard.1 cfgW
      ⟨[], [], receivedByProduct (poOver.receiveLines.getD []), []⟩
      ⟨none, some "P", 5, none⟩ "P" rfl rfl (by decide) hlines).1).mpr
      ⟨rfl, by
        norm_num +decide [orderedForProduct, productLinesFor, cfgW, poOver, truthyS,
          receivedByProduct, qmapSet]⟩
    simpa using h
  · have h := ((c2_over_receive_guard.1 cfgW
      ⟨[], [], receivedByProduct (poOver.receiveLines.getD []), []⟩
      ⟨none, some "P", 2, none⟩ "P" rfl rfl (by decide) hlines).2)
      (Or.inr (by
        norm_num +decide [orderedForProduct, productLinesFor, cfgW, poOver, truthyS,
          receivedByProduct, qmapSet]))
      (by decide)
    rw [h.1]
    norm_num +decide [receivedByProduct, poOver, truthyS, qmapSet]

/-! ### Partial batch behaviour (C5), dry runs (C6), empty id list (C10) -/

/-- The C5 example ledger entry: quantity 5 of product "A". -/
def entryA : ReceiveLine :=
  ⟨some "R1", some "A", none, none, 5, none, none, some "2024-01-01", none⟩

/-- The C5 example order: one line of product "A", ledger holding `entryA`. -/
def poC5 : PurchaseOrder :=
  { purchaseOrderId := "PO5", vendorId := some "V", orderNumber := none,
    status := some "Open", locationId := none,
    lines := some [⟨some "OL1", some "A", 10⟩],
    receiveLines := some [entryA],
    unstockLines := none, timestamp := some "TS" }

/-- The C5 example unreceive arguments: item "A" (valid) and item "B" (no
ledger entries — fails validation). -/
def argsC5 : UnreceiveArgs := ⟨none, some [⟨"A", 3⟩, ⟨"B", 1⟩], none, none⟩

/-- Counterexample for C5 as stated: in the unreceive items mode, an
invocation whose first item validates (product "A", 3 ≤ 5 received) and whose
second item fails (product "B" has no entries) aborts the whole batch — the
result is a validation failure and no write is issued, so the validated item
is not applied. -/
theorem c5_counterexample :
    (processUnreceiveItem (poC5.receiveLines.getD []) ⟨[], [], []⟩ ⟨"A", 3⟩).errors = [] ∧
    (unreceiveCompute (poC5.receiveLines.getD []) argsC5).errors
        = [.noReceiveLinesForProduct "B"] ∧
    unreceiveTool poC5 argsC5 = .validationFailure [.noReceiveLinesForProduct "B"] ∧
    (unreceiveTool poC5 argsC5).writeBody = none := by
  refine ⟨?_, ?_, ?_, ?_⟩
  · norm_num +decide [processUnreceiveItem, unreceiveLinesFor, totalReceivedFor, sortLifo,
      lifoInsert, lifoComparator, lifoWalk, setAddAll, setAdd, truthyS, strLt, charsLt,
      poC5, entryA]
  · norm_num +decide [unreceiveCompute, processUnreceiveItem, unreceiveLinesFor,
      totalReceivedFor, sortLifo, lifoInsert, lifoComparator, lifoWalk, setAddAll, setAdd,
      truthyS, truthyB, strLt, charsLt, poC5, argsC5, entryA]
  · norm_num +decide [unreceiveTool, modesCount, statusTerminal, unreceiveCompute,
      processUnreceiveItem, unreceiveLinesFor, totalReceivedFor, sortLifo, lifoInsert,
      lifoComparator, lifoWalk, setAddAll, setAdd, truthyS, truthyB, strLt, charsLt,
      poC5, argsC5, entryA]
  · norm_num +decide [unreceiveTool, modesCount, statusTerminal, unreceiveCompute,
      processUnreceiveItem, unreceiveLinesFor, totalReceivedFor, sortLifo, lifoInsert,
      lifoComparator, lifoWalk, setAddAll, setAdd, truthyS, truthyB, strLt, charsLt,
      poC5, argsC5, entryA, UnreceiveResult.writeBody]

/-- C5 (corrected): mixed batches behave asymmetrically.  For a receive
invocation in items mode that passes the early checks, if at least one item
fails validation and at least one item is accepted, the accepted items are
still applied — the write is issued with the new entries and the failures are
returned as warnings.  For an unreceive invocation in items mode, however,
any item validation failure aborts the entire batch: the result is a
validation failure and no write is issued. -/
theorem c5_mixed_batch :
    (∀ (po : PurchaseOrder) (args : ReceiveArgs) (nowIso : String) (freshId : ℕ → String),
      truthyB args.receiveAll = false →
      args.items.isSome = true →
      (args.items.getD []).length ≠ 0 →
      po.lines.isSome = true →
      (po.lines.getD []).length ≠ 0 →
      statusTerminal po.status = false →
      (receiveItemsRun po args nowIso freshId).errors ≠ [] →
      (receiveItemsRun po args nowIso freshId).newReceiveLines ≠ [] →
      receiveTool po args nowIso freshId =
        .success ((po.receiveLines.getD []).map stripReceiveLineToWritable
            ++ (receiveItemsRun po args nowIso freshId).newReceiveLines)
          (receiveItemsRun po args nowIso freshId).summary
          (receiveItemsRun po args nowIso freshId).errors)
    ∧ (∀ (po : PurchaseOrder) (args : UnreceiveArgs),
        args.receiveLineIds = none →
        truthyB args.unreceiveAll = false →
        args.items.isSome = true →
        statusTerminal po.status = false →
        (po.receiveLines.getD []).length ≠ 0 →
        (unreceiveCompute (po.receiveLines.getD []) args).errors ≠ [] →
        unreceiveTool po args =
          .validationFailure (unreceiveCompute (po.receiveLines.getD []) args).errors ∧
        (unreceiveTool po args).writeBody = none) := by
  constructor
  · intro po args nowIso freshId hra hits hlen hlines hlinlen hstat herr hnew
    have h1 : ¬(truthyB args.receiveAll = true ∧ args.items.isSome = true ∧
        (args.items.getD []).length > 0) := by
      intro hcon
      rw [hra] at hcon
      exact Bool.false_ne_true hcon.1
    have h2 : ¬(¬truthyB args.receiveAll = true ∧
        (args.items.isNone = true ∨ (args.items.getD []).length = 0)) := by
      intro hcon
      rcases hcon.2 with h | h
      · rw [Option.isNone_iff_eq_none] at h
        rw [h] at hits
        exact Bool.false_ne_true hits
      · exact hlen h
    have h3 : ¬(po.lines.isNone = true ∨ (po.lines.getD []).length = 0) := by
      intro hcon
      rcases hcon with h | h
      · rw [Option.isNone_iff_eq_none] at h
        rw [h] at hlines
        exact Bool.false_ne_true hlines
      · exact hlinlen h
    have h5 : ¬((receiveItemsRun po args nowIso freshId).errors.length > 0 ∧
        (receiveItemsRun po args nowIso freshId).newReceiveLines.length = 0) := by
      intro hcon
      exact hnew (List.length_eq_zero.mp hcon.2)
    simp only [receiveTool]
    rw [if_neg h1, if_neg h2, if_neg h3]
    simp only [hstat, Bool.false_eq_true, if_false, hra]
    rw [if_neg h5]
  · intro po args hrli hua hits hstat hlen herr
    have hm : modesCount args = 1 := by
      simp [modesCount, hrli, hua, hits]
    have hm0 : ¬(modesCount args = 0) := by
      rw [hm]
      exact one_ne_zero
    have hm1 : ¬(modesCount args > 1) := by
      rw [hm]
      exact lt_irrefl 1
    have h5 : (unreceiveCompute (po.receiveLines.getD []) args).errors.length > 0 := by
      cases h : (unreceiveCompute (po.receiveLines.getD []) args).errors with
      | nil => exact absurd h herr
      | cons a l => simp
    have htool : unreceiveTool po args =
        .validationFailure (unreceiveCompute (po.receiveLines.getD []) args).errors := by
      simp only [unreceiveTool]
      rw [if_neg hm0, if_neg hm1]
      simp only [hstat, Bool.false_eq_true, if_false]
      rw [if_neg hlen, if_pos h5]
    exact ⟨htool, by rw [htool]; rfl⟩

/-- The C5 witness receive arguments: item 1 requests 5 of "P" (rejected by
the over-receive guard at 8 + 5 > 10), item 2 requests 1 of "P" (accepted). -/
def argsMix : ReceiveArgs :=
  ⟨none, some [⟨none, some "P", 5, none⟩, ⟨none, some "P", 1, none⟩], none, none, none⟩

/-- Witness for C5 (amended): the mixed receive at `poOver` issues the write
with the accepted entry and carries the over-receive warning; the unreceive
batch of `c5_counterexample`'s input aborts with no write. -/
theorem c5_witness :
    ((receiveItemsRun poOver argsMix "NOW" (fun n => toString n)).errors ≠ [] ∧
      (receiveItemsRun poOver argsMix "NOW" (fun n => toString n)).newReceiveLines ≠ []) ∧
    receiveTool poOver argsMix "NOW" (fun n => toString n) =
      .success ((poOver.receiveLines.getD []).map stripReceiveLineToWritable
          ++ (receiveItemsRun poOver argsMix "NOW" (fun n => toString n)).newReceiveLines)
        (receiveItemsRun poOver argsMix "NOW" (fun n => toString n)).summary
        (receiveItemsRun poOver argsMix "NOW" (fun n => toString n)).errors ∧
    ((unreceiveCompute (poC5.receiveLines.getD []) argsC5).errors ≠ [] ∧
      (unreceiveTool poC5 argsC5).writeBody = none) := by
  have herr : (receiveItemsRun poOver argsMix "NOW" (fun n => toString n)).errors ≠ [] := by
    norm_num +decide [receiveItemsRun, receiveCfgOf, poOver, argsMix, truthyS, truthyB,
      processReceiveItem, productLinesFor, orderedForProduct, lineMapGet, receivedByProduct,
      qmapSet, serialCountOk]
  have hnew : (receiveItemsRun poOver argsMix "NOW" (fun n => toString n)).newReceiveLines
      ≠ [] := by
    norm_num +decide [receiveItemsRun, receiveCfgOf, poOver, argsMix, truthyS, truthyB,
      processReceiveItem, productLinesFor, orderedForProduct, lineMapGet, receivedByProduct,
      qmapSet, serialCountOk]
  have herr2 : (unreceiveCompute (poC5.receiveLines.getD []) argsC5).errors ≠ [] := by
    norm_num +decide [unreceiveCompute, processUnreceiveItem, unreceiveLinesFor,
      totalReceivedFor, sortLifo, lifoInsert, lifoComparator, lifoWalk, setAddAll, setAdd,
      truthyS, truthyB, strLt, charsLt, poC5, argsC5, entryA]
  refine ⟨⟨herr, hnew⟩, ?_, herr2, ?_⟩
  · exact c5_mixed_batch.1 poOver argsMix "NOW" (fun n => toString n)
      rfl rfl (by decide) rfl (by decide) rfl herr hnew
  · exact (c5_mixed_batch.2 poC5 argsC5 rfl rfl rfl rfl (by decide) herr2).2

/-- C6: every unreceive invocation with a truthy `dryRun` issues no write,
regardless of mode — every result path under `dryRun` is an error report or
the preview, never the applied PUT. -/
theorem c6_dry_run_no_write (po : PurchaseOrder) (args : UnreceiveArgs)
    (h : truthyB args.dryRun = true) :
    (unreceiveTool po args).writeBody = none := by
  simp only [unreceiveTool, h]
  split_ifs <;> rfl

/-- Witness for C6: the LIFO unreceive of 3 of "A" with `dryRun = true`
issues no write. -/
theorem c6_witness :
    truthyB (some true) = true ∧
    (unreceiveTool poC5 ⟨none, some [⟨"A", 3⟩], none, some true⟩).writeBody = none :=
  ⟨rfl, c6_dry_run_no_write poC5 ⟨none, some [⟨"A", 3⟩], none, some true⟩ rfl⟩

/-- C10: an unreceive invocation with `receiveLineIds = []` counts as one
supplied mode (so it is not rejected as having zero modes, and combining it
with `items` or `unreceiveAll` is rejected as multiple modes); it passes
validation with no errors, marks nothing, and with `dryRun` unset issues the
full-replacement write whose ledger is the existing ledger stripped to
writable fields, removing and modifying nothing. -/
theorem c10_empty_receive_line_ids :
    modesCount ⟨some [], none, none, none⟩ = 1
    ∧ (∀ (po : PurchaseOrder) (its : List UnreceiveItem) (d : Option Bool),
        unreceiveTool po ⟨some [], some its, none, d⟩ = .invalidModes 2)
    ∧ (∀ (po : PurchaseOrder) (d : Option Bool),
        unreceiveTool po ⟨some [], none, some true, d⟩ = .invalidModes 2)
    ∧ (∀ po : PurchaseOrder,
        statusTerminal po.status = false →
        (po.receiveLines.getD []).length ≠ 0 →
        unreceiveTool po ⟨some [], none, none, none⟩ =
          .applied
            { purchaseOrderId := po.purchaseOrderId
              vendorId := po.vendorId
              receiveLines := (po.receiveLines.getD []).map stripReceiveLineToWritable
              unstockLines := po.unstockLines.getD []
              timestamp := po.timestamp }
            [] []) := by
  refine ⟨rfl, ?_, ?_, ?_⟩
  · intro po its d
    simp [unreceiveTool, modesCount, truthyB]
  · intro po d
    simp [unreceiveTool, modesCount, truthyB]
  · intro po hstat hlen
    have hm0 : ¬(modesCount ⟨some [], none, none, none⟩ = 0) := by decide
    have hm1 : ¬(modesCount ⟨some [], none, none, none⟩ > 1) := by decide
    have hcomp : unreceiveCompute (po.receiveLines.getD []) ⟨some [], none, none, none⟩
        = { removeIds := [], mods := [], errors := [] } := rfl
    have h5 : ¬((unreceiveCompute (po.receiveLines.getD [])
        ⟨some [], none, none, none⟩).errors.length > 0) := by
      rw [hcomp]
      simp
    have hrem : remainingLines (po.receiveLines.getD [])
        { removeIds := [], mods := [], errors := [] }
        = (po.receiveLines.getD []).map stripReceiveLineToWritable := by
      simp [remainingLines, applyMods, List.filter]
    simp only [unreceiveTool]
    rw [if_neg hm0, if_neg hm1]
    simp only [hstat, Bool.false_eq_true, if_false]
    rw [if_neg hlen, if_neg h5]
    simp only [hcomp, hrem]
    simp [buildRemoved, buildModified, truthyB]

/-- Witness for C10: the write issued for `poC5` with empty `receiveLineIds`
carries its single ledger entry stripped to writable fields. -/
theorem c10_witness :
    statusTerminal poC5.status = false ∧
    (poC5.receiveLines.getD []).length ≠ 0 ∧
    unreceiveTool poC5 ⟨some [], none, none, none⟩ =
      .applied
        { purchaseOrderId := poC5.purchaseOrderId
          vendorId := poC5.vendorId
          receiveLines := (poC5.receiveLines.getD []).map stripReceiveLineToWritable
          unstockLines := poC5.unstockLines.getD []
          timestamp := poC5.timestamp }
        [] [] := by
  refine ⟨by decide, by decide, ?_⟩
  exact c10_empty_receive_line_ids.2.2.2 poC5 (by decide) (by decide)

end Inflow
